import Mathlib

/-!
# Medicita: the client-side data layer of `js/scripts.js`

A shallow embedding of the validators, the authentication functions and the
form handlers of `js/scripts.js`, followed by the properties proved about them.

Conventions of the embedding.
* A JavaScript string is a Lean `String`; the regular expressions of the source
  only count characters of ASCII classes, so matching by code point and matching
  by UTF-16 code unit agree on them.
* `localStorage` is the record `Store`, one slot per key of `LS_KEYS`; a slot is
  `none` when the key is absent or holds text that `JSON.parse` rejects.
* The values `genId` draws from `Math.random()` and `Date.now()` are passed in as
  an `Entropy` argument; `String.prototype.toLowerCase` and `parseInt(·, 10)` are
  function arguments of the functions that call them.
* A form handler receives the values of its form fields as a record and returns
  an `Outcome`: the early `return` that shows a feedback message, or the fall
  through to the `save…` call.
-/

namespace Medicita

/-! ## JavaScript string primitives -/

/-- The characters of the regular-expression class `\s`; `String.prototype.trim`
strips exactly the same characters. -/
def jsIsSpace (c : Char) : Bool :=
  c.toNat == 0x09 || c.toNat == 0x0A || c.toNat == 0x0B || c.toNat == 0x0C ||
  c.toNat == 0x0D || c.toNat == 0x20 || c.toNat == 0xA0 || c.toNat == 0x1680 ||
  (0x2000 ≤ c.toNat && c.toNat ≤ 0x200A) || c.toNat == 0x2028 || c.toNat == 0x2029 ||
  c.toNat == 0x202F || c.toNat == 0x205F || c.toNat == 0x3000 || c.toNat == 0xFEFF

/-- The class `\d`: the ten ASCII digits. -/
def jsIsDigit (c : Char) : Bool := 48 ≤ c.toNat && c.toNat ≤ 57

/-- The class `[A-Za-z]`. -/
def jsIsAlpha (c : Char) : Bool :=
  (65 ≤ c.toNat && c.toNat ≤ 90) || (97 ≤ c.toNat && c.toNat ≤ 122)

/-- The method `trim` on the characters of a string. -/
def trimChars (l : List Char) : List Char :=
  ((l.dropWhile jsIsSpace).reverse.dropWhile jsIsSpace).reverse

/-- The method `String.prototype.trim`. -/
def jsTrim (s : String) : String := String.mk (trimChars s.data)

/-- The method `split` with a one-character separator, on the characters of a string:
`"".split(",")` is `[""]` and `",".split(",")` is `["", ""]`. -/
def splitOn (sep : Char) : List Char → List (List Char)
  | [] => [[]]
  | a :: t =>
    if a = sep then [] :: splitOn sep t
    else
      match splitOn sep t with
      | [] => [[a]]
      | w :: ws => (a :: w) :: ws

/-- The function `Number` on a string of decimal digits, the only strings the schedule
pattern lets reach it. -/
def jsNumber (l : List Char) : Nat :=
  l.foldl (fun acc c => acc * 10 + (c.toNat - 48)) 0

/-! ## Regular expressions

The patterns of the source are anchored with `^` and carry no flag, so a match
is attempted at the start of the input only; `$` is the constructor `eos`.
Quantifiers are greedy and alternatives are tried left to right: `run` lists the
ways a pattern can match a prefix of the input in the order a backtracking
matcher tries them, each with the rest of the input and the captures so far. -/

/-- Captures, most recent first: group number and captured text. -/
abbrev Caps := List (Nat × List Char)

/-- The regular expressions the source's literals are built from. -/
inductive RE where
  | cls (p : Char → Bool)
  | eps
  | eos
  | seq (a b : RE)
  | alt (a b : RE)
  | star (a : RE)
  | group (n : Nat) (a : RE)

/-- Greedy iteration of a matching step; an iteration that consumes nothing is
dropped, as `*` does. The fuel is the length of the input. -/
def iter (step : List Char → Caps → List (List Char × Caps)) :
    Nat → List Char → Caps → List (List Char × Caps)
  | 0, s, c => [(s, c)]
  | n + 1, s, c =>
    (((step s c).filter (fun r => decide (r.1.length < s.length))).flatMap
      (fun r => iter step n r.1 r.2)) ++ [(s, c)]

/-- All the ways `r` matches a prefix of `s`, in backtracking order. -/
def run : RE → List Char → Caps → List (List Char × Caps)
  | .cls p, s, c =>
    match s with
    | [] => []
    | a :: t => if p a then [(t, c)] else []
  | .eps, s, c => [(s, c)]
  | .eos, s, c => if s.isEmpty then [(s, c)] else []
  | .seq a b, s, c => (run a s c).flatMap (fun r => run b r.1 r.2)
  | .alt a b, s, c => run a s c ++ run b s c
  | .star a, s, c => iter (fun s1 c1 => run a s1 c1) s.length s c
  | .group n a, s, c =>
    (run a s c).map (fun r => (r.1, (n, s.take (s.length - r.1.length)) :: r.2))

namespace RE

/-- A literal character. -/
def chr (a : Char) : RE := .cls (fun c => c == a)

/-- The quantifier `+`. -/
def plus (r : RE) : RE := .seq r (.star r)

/-- The quantifier `?`. -/
def opt (r : RE) : RE := .alt r .eps

/-- Exactly `k` copies of `r`. -/
def exactly (r : RE) : Nat → RE
  | 0 => .eps
  | k + 1 => .seq r (exactly r k)

/-- At most `k` copies of `r`, as many as possible first. -/
def upTo (r : RE) : Nat → RE
  | 0 => .eps
  | k + 1 => .alt (.seq r (upTo r k)) .eps

/-- The quantifier `{m,n}`. -/
def rep (r : RE) (m n : Nat) : RE := .seq (exactly r m) (upTo r (n - m))

end RE

/-- The method `RegExp.prototype.test` for an anchored pattern. -/
def reTest (r : RE) (s : List Char) : Bool := !(run r s []).isEmpty

/-- The method `String.prototype.match` for an anchored pattern without the `g` flag: the
captures of the first match, or `none` for `null`. -/
def reMatch (r : RE) (s : List Char) : Option Caps := ((run r s []).head?).map (fun x => x.2)

/-- The text of capture group `n` in a match. -/
def capture (c : Caps) (n : Nat) : List Char := (c.lookup n).getD []

/-! ## Validators -/

/-- The class `[\s().-]` of the separators removed from a phone number. -/
def isPhoneSep (c : Char) : Bool :=
  jsIsSpace c || c == '(' || c == ')' || c == '.' || c == '-'

/-- The pattern `/^\d{8,15}$/`. -/
def rePhonePlus : RE := .seq (RE.rep (.cls jsIsDigit) 8 15) .eos

/-- The pattern `/^\d{7,15}$/`. -/
def rePhoneLocal : RE := .seq (RE.rep (.cls jsIsDigit) 7 15) .eos

/-- The function `isPhoneIntl` on the characters of its argument. -/
def isPhoneIntlChars (v : List Char) : Bool :=
  if v.isEmpty then false
  else
    let s := trimChars v
    if s.isEmpty then false
    else
      let t := s.filter (fun c => !isPhoneSep c)
      match t with
      | '+' :: t1 => reTest rePhonePlus t1
      | _ => reTest rePhoneLocal t

/-- The function `isPhoneIntl`. -/
def isPhoneIntl (v : String) : Bool := isPhoneIntlChars v.data

/-- The class `[^\s@]`. -/
def isLocalChar (c : Char) : Bool := !(jsIsSpace c || c == '@')

/-- The class `[A-Za-z0-9.-]`. -/
def isDomainChar (c : Char) : Bool := jsIsAlpha c || jsIsDigit c || c == '.' || c == '-'

/-- The pattern `/^[^\s@]+@[A-Za-z0-9.-]+\.[A-Za-z]{2,24}$/`. -/
def reEmail : RE :=
  .seq (RE.plus (.cls isLocalChar))
    (.seq (RE.chr '@')
      (.seq (RE.plus (.cls isDomainChar))
        (.seq (RE.chr '.')
          (.seq (RE.rep (.cls jsIsAlpha) 2 24) .eos))))

/-- The function `isEmail` on the characters of its argument. -/
def isEmailChars (v : List Char) : Bool :=
  if v.isEmpty then false else reTest reEmail v

/-- The function `isEmail`. -/
def isEmail (v : String) : Bool := isEmailChars v.data

/-- The class `[LMXJVSD]`. -/
def isDayChar (c : Char) : Bool :=
  c == 'L' || c == 'M' || c == 'X' || c == 'J' || c == 'V' || c == 'S' || c == 'D'

/-- The sub-pattern `(?:[01]\d|2[0-3]):[0-5]\d`. -/
def reClock : RE :=
  .seq
    (.alt (.seq (.cls (fun c => c == '0' || c == '1')) (.cls jsIsDigit))
          (.seq (RE.chr '2') (.cls (fun c => 48 ≤ c.toNat && c.toNat ≤ 51))))
    (.seq (RE.chr ':')
      (.seq (.cls (fun c => 48 ≤ c.toNat && c.toNat ≤ 53)) (.cls jsIsDigit)))

/-- The sub-pattern `\s*-\s*`. -/
def reDash : RE := .seq (.star (.cls jsIsSpace)) (.seq (RE.chr '-') (.star (.cls jsIsSpace)))

/-- The pattern
`/^([LMXJVSD](?:\s*-\s*[LMXJVSD])?)\s+((?:[01]\d|2[0-3]):[0-5]\d)\s*-\s*((?:[01]\d|2[0-3]):[0-5]\d)$/`. -/
def reSchedule : RE :=
  .seq (.group 1 (.seq (.cls isDayChar) (RE.opt (.seq reDash (.cls isDayChar)))))
    (.seq (RE.plus (.cls jsIsSpace))
      (.seq (.group 2 reClock)
        (.seq reDash
          (.seq (.group 3 reClock) .eos))))

/-- The helper `toMin` of `validateSchedule`: `hm.split(':').map(Number)` read as
`[h, m]`, then `h*60+m`; `none` stands for the `NaN` of a missing part. -/
def toMin (hm : List Char) : Option Nat :=
  match (splitOn ':' hm).map jsNumber with
  | h :: m :: _ => some (h * 60 + m)
  | _ => none

/-- The object `validateSchedule` returns. -/
structure ScheduleResult where
  valid : Bool
  message : Option String
  deriving DecidableEq, Repr

/-- The segments of a schedule: `str.split(',').map(s => s.trim()).filter(Boolean)`. -/
def scheduleSegments (str : List Char) : List (List Char) :=
  ((splitOn ',' str).map trimChars).filter (fun s => !s.isEmpty)

/-- The `for` loop of `validateSchedule` from index `i` on. -/
def scheduleLoop : Nat → List (List Char) → ScheduleResult
  | _, [] => { valid := true, message := none }
  | i, seg :: rest =>
    match reMatch reSchedule seg with
    | none =>
      { valid := false,
        message := some ("Formato inválido en tramo " ++ toString (i + 1) ++ ". Ej: L-V 09:00-17:00") }
    | some m =>
      match toMin (capture m 2), toMin (capture m 3) with
      | some start, some stop =>
        if start ≥ stop then
          { valid := false,
            message := some ("Rango horario inválido en tramo " ++ toString (i + 1) ++
              " (inicio debe ser menor que fin)") }
        else scheduleLoop (i + 1) rest
      | _, _ => scheduleLoop (i + 1) rest

/-- The function `validateSchedule` on the characters of its argument. -/
def validateScheduleChars (str : List Char) : ScheduleResult :=
  if str.isEmpty || (trimChars str).isEmpty then
    { valid := false, message := some "Ingrese un horario (ej: L-V 09:00-17:00)" }
  else scheduleLoop 0 (scheduleSegments str)

/-- The function `validateSchedule`. -/
def validateSchedule (str : String) : ScheduleResult := validateScheduleChars str.data

/-! ## Records and storage -/

/-- A record of the `users` collection. -/
structure User where
  id : String
  nombre : String
  usuario : String
  password : String
  rol : String
  deriving DecidableEq, Repr

/-- The object `setSession` stores. -/
structure Session where
  id : String
  usuario : String
  nombre : String
  rol : String
  deriving DecidableEq, Repr

/-- A record of the `doctors` collection. -/
structure Doctor where
  id : String
  nombre : String
  especialidad : String
  telefono : String
  correo : String
  horario : String
  deriving DecidableEq, Repr

/-- A record of the `patients` collection; `edad` is the stored number, or `none` for the
`null` that `JSON.stringify` writes for `NaN` and the infinities. -/
structure Patient where
  id : String
  nombre : String
  edad : Option Int
  sexo : String
  telefono : String
  direccion : String
  medicoId : String
  medicoNombre : String
  deriving DecidableEq, Repr

/-- A record of the `citas` collection. -/
structure Cita where
  id : String
  pacienteId : String
  pacienteNombre : String
  doctorId : String
  doctorNombre : String
  fecha : String
  motivo : String
  estado : String
  deriving DecidableEq, Repr

/-- A record of the `historial` collection. -/
structure Historial where
  id : String
  pacienteId : String
  pacienteNombre : String
  doctorId : String
  doctorNombre : String
  fecha : String
  diagnostico : String
  medicamentos : String
  observaciones : String
  deriving DecidableEq, Repr

/-- The own properties of a user object, in the order of its object literal. -/
def User.props (u : User) : List (String × String) :=
  [("id", u.id), ("nombre", u.nombre), ("usuario", u.usuario), ("password", u.password),
   ("rol", u.rol)]

/-- The own properties of a session object, in the order of its object literal. -/
def Session.props (x : Session) : List (String × String) :=
  [("id", x.id), ("usuario", x.usuario), ("nombre", x.nombre), ("rol", x.rol)]

/-- The contents of `localStorage` under the keys of `LS_KEYS`. -/
structure Store where
  users : Option (List User)
  session : Option Session
  patients : Option (List Patient)
  doctors : Option (List Doctor)
  citas : Option (List Cita)
  historial : Option (List Historial)
  deriving DecidableEq, Repr

/-- A storage with no key set. -/
def Store.empty : Store :=
  { users := none, session := none, patients := none, doctors := none, citas := none,
    historial := none }

/-- The function `readLS` on the slot of a key: the fallback when the key is absent, holds
`null`, or does not parse. -/
def readLS {α : Type} (slot : Option α) (fallback : α) : α := slot.getD fallback

/-- The random and clock values one call of `genId` reads: the text of
`Math.random().toString(36)` and the number `Date.now()`. -/
structure Entropy where
  random36 : String
  now : Nat
  deriving DecidableEq, Repr

/-- The function `genId`. -/
def genId (pfx : String) (e : Entropy) : String :=
  pfx ++ "_" ++ (e.random36.drop 2).take 6 ++ (toString e.now).takeRight 4

/-! ## Seed defaults -/

/-- The function `seedDefaults`; `e 0`, `e 1`, `e 2` feed the ids of the users and `e 3`,
`e 4` those of the doctors. -/
def seedDefaults (e : Nat → Entropy) (s : Store) : Store :=
  let users := readLS s.users []
  let s1 :=
    if users.isEmpty then
      { s with users := some (users ++
          [ { id := genId "usr" (e 0), nombre := "Admin", usuario := "admin",
              password := "admin", rol := "Administrador" },
            { id := genId "usr" (e 1), nombre := "Dra. Demo", usuario := "doctor",
              password := "doctor", rol := "Doctor" },
            { id := genId "usr" (e 2), nombre := "Recep Demo", usuario := "recep",
              password := "recep", rol := "Recepcionista" } ]) }
    else s
  let doctors := readLS s1.doctors []
  if doctors.isEmpty then
    { s1 with doctors := some (doctors ++
        [ { id := genId "doc" (e 3), nombre := "Dra. Sofía Pérez",
            especialidad := "Medicina General", telefono := "999-111-2222",
            correo := "sofia@clinic.com", horario := "L-V 9:00-17:00" },
          { id := genId "doc" (e 4), nombre := "Dr. Luis García",
            especialidad := "Pediatría", telefono := "999-333-4444",
            correo := "luis@clinic.com", horario := "L-V 10:00-16:00" } ]) }
  else s1

/-! ## Authentication -/

/-- The function `getSession`: `readLS` with the fallback `null`, so that an absent key and a
stored `null` both read as `none`. -/
def getSession (s : Store) : Option Session := s.session

/-- The function `setSession`. -/
def setSession (user : Option User) (s : Store) : Store :=
  { s with session :=
      match user with
      | some u => some { id := u.id, usuario := u.usuario, nombre := u.nombre, rol := u.rol }
      | none => none }

/-- The argument of `registerUser`. -/
structure NewUser where
  nombre : String
  usuario : String
  password : String
  rol : String
  deriving DecidableEq, Repr

/-- The object `registerUser` or `login` returns. -/
inductive AuthResult where
  | failure (message : String)
  | success (user : User)
  deriving DecidableEq, Repr

/-- The function `registerUser`; `lower` is `String.prototype.toLowerCase`. -/
def registerUser (lower : String → String) (e : Entropy) (n : NewUser) (s : Store) :
    AuthResult × Store :=
  let users := readLS s.users []
  if users.any (fun u => lower u.usuario == lower n.usuario) then
    (.failure "El usuario ya existe", s)
  else
    let newUser : User :=
      { id := genId "usr" e, nombre := n.nombre, usuario := n.usuario,
        password := n.password, rol := n.rol }
    (.success newUser, { s with users := some (users ++ [newUser]) })

/-- The function `login`. -/
def login (usuario password : String) (s : Store) : AuthResult × Store :=
  let users := readLS s.users []
  match users.find? (fun u => u.usuario == usuario && u.password == password) with
  | none => (.failure "Usuario o contraseña incorrectos", s)
  | some user => (.success user, setSession (some user) s)

/-! ## Form handlers -/

/-- How a submit handler ends: the early `return` after showing `feedback`, or the call of
the collection's `save…` function followed by the reset of the form. -/
inductive Outcome where
  | rejected (store : Store) (feedback : String)
  | saved (store : Store)
  deriving DecidableEq, Repr

/-- The storage after the handler. -/
def Outcome.store : Outcome → Store
  | .rejected s _ => s
  | .saved s => s

/-- Whether the handler reached its `save…` call. -/
def Outcome.isSaved : Outcome → Bool
  | .rejected _ _ => false
  | .saved _ => true

/-- The text of the feedback element after the handler; the reset of the form empties it. -/
def Outcome.feedback : Outcome → String
  | .rejected _ m => m
  | .saved _ => ""

/-- The button a table click lands on: its `data-id` and `data-action` attributes. -/
structure Click where
  dataId : String
  action : String
  deriving DecidableEq, Repr

/-- The function `getDoctors`. -/
def getDoctors (s : Store) : List Doctor := readLS s.doctors []

/-- The function `saveDoctors`. -/
def saveDoctors (list : List Doctor) (s : Store) : Store := { s with doctors := some list }

/-- The fields of the doctor form. -/
structure DoctorForm where
  doctorId : String
  dNombre : String
  dEspecialidad : String
  dTelefono : String
  dCorreo : String
  dHorario : String
  deriving DecidableEq, Repr

/-- The function `handleDoctorSubmit`. -/
def handleDoctorSubmit (e : Entropy) (f : DoctorForm) (s : Store) : Outcome :=
  let id := f.doctorId
  let nombre := jsTrim f.dNombre
  let especialidad := jsTrim f.dEspecialidad
  let telefono := jsTrim f.dTelefono
  let correo := jsTrim f.dCorreo
  let horario := jsTrim f.dHorario
  if !isPhoneIntl telefono then
    .rejected s "Teléfono inválido. Ej: 9999-9999 o +1 202-555-0123"
  else if !isEmail correo then .rejected s "Correo inválido"
  else
    let sch := validateSchedule horario
    if !sch.valid then .rejected s (sch.message.getD "")
    else
      let list := getDoctors s
      let list1 :=
        if id ≠ "" then
          match list.findIdx? (fun d => d.id == id) with
          | some idx =>
            list.set idx { id := id, nombre := nombre, especialidad := especialidad,
                           telefono := telefono, correo := correo, horario := horario }
          | none => list
        else
          list ++ [{ id := genId "doc" e, nombre := nombre, especialidad := especialidad,
                     telefono := telefono, correo := correo, horario := horario }]
      .saved (saveDoctors list1 s)

/-- The confirmed or declined `del` and the `edit` of `onDoctorsTableClick`; `edit` only
fills the form. -/
def onDoctorsTableClick (btn : Option Click) (confirm : Bool) (s : Store) : Store :=
  match btn with
  | none => s
  | some b =>
    let list := getDoctors s
    let item := list.find? (fun d => d.id == b.dataId)
    if b.action == "edit" && item.isSome then s
    else if b.action == "del" then
      if confirm then saveDoctors (list.filter (fun d => d.id != b.dataId)) s else s
    else s

/-- The function `getPatients`. -/
def getPatients (s : Store) : List Patient := readLS s.patients []

/-- The function `savePatients`. -/
def savePatients (list : List Patient) (s : Store) : Store := { s with patients := some list }

/-- The fields of the patient form. -/
structure PatientForm where
  patientId : String
  pNombre : String
  pEdad : String
  pSexo : String
  pTelefono : String
  pDireccion : String
  pMedico : String
  deriving DecidableEq, Repr

/-- The function `handlePatientSubmit`. The argument `parseInt10` stands for the call
`parseInt(v, 10)` as the storage keeps its result: the integer of an integer-valued double, or
`none` for the `null` that `NaN` and the infinities are stored as. How a long run of digits
rounds to a double is left to the JavaScript engine, so the function is not fixed here. -/
def handlePatientSubmit (parseInt10 : String → Option Int) (e : Entropy) (f : PatientForm)
    (s : Store) : Outcome :=
  let id := f.patientId
  let nombre := jsTrim f.pNombre
  let edad := parseInt10 f.pEdad
  let sexo := f.pSexo
  let telefono := jsTrim f.pTelefono
  let direccion := jsTrim f.pDireccion
  let medicoId := f.pMedico
  if !isPhoneIntl telefono then
    .rejected s "Teléfono inválido. Ej: 9999-9999 o +1 202-555-0123"
  else
    let list := getPatients s
    let medico := (getDoctors s).find? (fun d => d.id == medicoId)
    let medicoNombre := match medico with
      | some d => d.nombre
      | none => ""
    let list1 :=
      if id ≠ "" then
        match list.findIdx? (fun p => p.id == id) with
        | some idx =>
          list.set idx { id := id, nombre := nombre, edad := edad, sexo := sexo,
                         telefono := telefono, direccion := direccion, medicoId := medicoId,
                         medicoNombre := medicoNombre }
        | none => list
      else
        list ++ [{ id := genId "pac" e, nombre := nombre, edad := edad, sexo := sexo,
                   telefono := telefono, direccion := direccion, medicoId := medicoId,
                   medicoNombre := medicoNombre }]
    .saved (savePatients list1 s)

/-- The function `onPatientsTableClick`; `edit` only fills the form. -/
def onPatientsTableClick (btn : Option Click) (confirm : Bool) (s : Store) : Store :=
  match btn with
  | none => s
  | some b =>
    let list := getPatients s
    let item := list.find? (fun p => p.id == b.dataId)
    if b.action == "edit" && item.isSome then s
    else if b.action == "del" then
      if confirm then savePatients (list.filter (fun p => p.id != b.dataId)) s else s
    else s

/-- The function `getCitas`. -/
def getCitas (s : Store) : List Cita := readLS s.citas []

/-- The function `saveCitas`. -/
def saveCitas (list : List Cita) (s : Store) : Store := { s with citas := some list }

/-- The fields of the appointment form. -/
structure CitaForm where
  citaId : String
  cPaciente : String
  cDoctor : String
  cFecha : String
  cMotivo : String
  cEstado : String
  deriving DecidableEq, Repr

/-- The function `handleCitaSubmit`. -/
def handleCitaSubmit (e : Entropy) (f : CitaForm) (s : Store) : Outcome :=
  let id := f.citaId
  let pacienteId := f.cPaciente
  let doctorId := f.cDoctor
  let fecha := f.cFecha
  let motivo := jsTrim f.cMotivo
  let estado := f.cEstado
  if pacienteId = "" || doctorId = "" then .rejected s "Seleccione paciente y doctor"
  else if fecha = "" then .rejected s "Seleccione fecha"
  else
    let list := getCitas s
    let paciente := (getPatients s).find? (fun p => p.id == pacienteId)
    let doctor := (getDoctors s).find? (fun d => d.id == doctorId)
    let pacienteNombre := match paciente with
      | some p => p.nombre
      | none => ""
    let doctorNombre := match doctor with
      | some d => d.nombre
      | none => ""
    if id ≠ "" then
      match list.findIdx? (fun c => c.id == id) with
      | some idx =>
        .saved (saveCitas (list.set idx
          { id := id, pacienteId := pacienteId, pacienteNombre := pacienteNombre,
            doctorId := doctorId, doctorNombre := doctorNombre, fecha := fecha,
            motivo := motivo, estado := estado }) s)
      | none => .saved (saveCitas list s)
    else
      let overlap := list.any (fun c =>
        c.doctorId == doctorId && c.fecha == fecha && c.estado != "Cancelada")
      if overlap then .rejected s "Ya existe una cita para ese doctor en la misma fecha y hora"
      else
        .saved (saveCitas (list ++
          [{ id := genId "cit" e, pacienteId := pacienteId, pacienteNombre := pacienteNombre,
             doctorId := doctorId, doctorNombre := doctorNombre, fecha := fecha,
             motivo := motivo, estado := estado }]) s)

/-- The function `onCitasTableClick`; `edit` only fills the form, and a confirmed `del` marks
the appointments with the clicked id as cancelled. -/
def onCitasTableClick (btn : Option Click) (confirm : Bool) (s : Store) : Store :=
  match btn with
  | none => s
  | some b =>
    let list := getCitas s
    let item := list.find? (fun c => c.id == b.dataId)
    if b.action == "edit" && item.isSome then s
    else if b.action == "del" then
      if confirm then
        saveCitas (list.map (fun c => if c.id == b.dataId then { c with estado := "Cancelada" } else c)) s
      else s
    else s

/-- The function `getHistorial`. -/
def getHistorial (s : Store) : List Historial := readLS s.historial []

/-- The function `saveHistorial`. -/
def saveHistorial (list : List Historial) (s : Store) : Store := { s with historial := some list }

/-- The fields of the history form. -/
structure HistForm where
  hId : String
  hPaciente : String
  hDoctor : String
  hFecha : String
  hDiagnostico : String
  hMedicamentos : String
  hObservaciones : String
  deriving DecidableEq, Repr

/-- The function `handleHistSubmit`. -/
def handleHistSubmit (e : Entropy) (f : HistForm) (s : Store) : Outcome :=
  let id := f.hId
  let pacienteId := f.hPaciente
  let doctorId := f.hDoctor
  let fecha := f.hFecha
  let diagnostico := jsTrim f.hDiagnostico
  let medicamentos := jsTrim f.hMedicamentos
  let observaciones := jsTrim f.hObservaciones
  if pacienteId = "" || doctorId = "" then .rejected s "Seleccione paciente y doctor"
  else if fecha = "" then .rejected s "Seleccione fecha"
  else
    let list := getHistorial s
    let paciente := (getPatients s).find? (fun p => p.id == pacienteId)
    let doctor := (getDoctors s).find? (fun d => d.id == doctorId)
    let pacienteNombre := match paciente with
      | some p => p.nombre
      | none => ""
    let doctorNombre := match doctor with
      | some d => d.nombre
      | none => ""
    let list1 :=
      if id ≠ "" then
        match list.findIdx? (fun h => h.id == id) with
        | some idx =>
          list.set idx
            { id := id, pacienteId := pacienteId, pacienteNombre := pacienteNombre,
              doctorId := doctorId, doctorNombre := doctorNombre, fecha := fecha,
              diagnostico := diagnostico, medicamentos := medicamentos,
              observaciones := observaciones }
        | none => list
      else
        list ++ [{ id := genId "his" e, pacienteId := pacienteId,
                   pacienteNombre := pacienteNombre, doctorId := doctorId,
                   doctorNombre := doctorNombre, fecha := fecha, diagnostico := diagnostico,
                   medicamentos := medicamentos, observaciones := observaciones }]
    .saved (saveHistorial list1 s)

/-- The function `onHistTableClick`; `edit` only fills the form. -/
def onHistTableClick (btn : Option Click) (confirm : Bool) (s : Store) : Store :=
  match btn with
  | none => s
  | some b =>
    let list := getHistorial s
    let item := list.find? (fun h => h.id == b.dataId)
    if b.action == "edit" && item.isSome then s
    else if b.action == "del" then
      if confirm then saveHistorial (list.filter (fun h => h.id != b.dataId)) s else s
    else s

/-! ## Specification-side definitions -/

/-- The decimal digits. -/
def decimalDigits : List Char := "0123456789".data

/-- The letters of the Latin alphabet, in both cases. -/
def latinLetters : List Char := "ABCDEFGHIJKLMNOPQRSTUVWXYZabcdefghijklmnopqrstuvwxyz".data

/-- The phone format of the specification, on the characters of the input: with white space,
parentheses, dots and dashes removed, either `+` followed by 8 to 15 decimal digits, or 7 to 15
decimal digits. -/
def PhoneFormat (s : List Char) : Prop :=
  let t := s.filter (fun c => !(jsIsSpace c || c = '(' || c = ')' || c = '.' || c = '-'))
  (∃ ds, t = '+' :: ds ∧ 8 ≤ ds.length ∧ ds.length ≤ 15 ∧ ∀ d ∈ ds, d ∈ decimalDigits) ∨
  (7 ≤ t.length ∧ t.length ≤ 15 ∧ ∀ d ∈ t, d ∈ decimalDigits)

/-- The e-mail format as the specification words it: `localpart@domain.tld` with a non-empty
local part and a non-empty domain, both free of white space and `@`, and a final label of 2 to
24 letters. -/
def EmailFormatStated (s : List Char) : Prop :=
  ∃ loc dom tld, s = loc ++ '@' :: (dom ++ '.' :: tld) ∧
    loc ≠ [] ∧ (∀ a ∈ loc, jsIsSpace a = false ∧ a ≠ '@') ∧
    dom ≠ [] ∧ (∀ a ∈ dom, jsIsSpace a = false ∧ a ≠ '@') ∧
    2 ≤ tld.length ∧ tld.length ≤ 24 ∧ ∀ a ∈ tld, a ∈ latinLetters

/-- The e-mail format the pattern of `isEmail` accepts: as `EmailFormatStated`, with the domain
made of letters, digits, dots and hyphens only. -/
def EmailFormat (s : List Char) : Prop :=
  ∃ loc dom tld, s = loc ++ '@' :: (dom ++ '.' :: tld) ∧
    loc ≠ [] ∧ (∀ a ∈ loc, jsIsSpace a = false ∧ a ≠ '@') ∧
    dom ≠ [] ∧ (∀ a ∈ dom, a ∈ latinLetters ∨ a ∈ decimalDigits ∨ a = '.' ∨ a = '-') ∧
    2 ≤ tld.length ∧ tld.length ≤ 24 ∧ ∀ a ∈ tld, a ∈ latinLetters

/-- The day codes of a schedule. -/
def dayLetters : List Char := ['L', 'M', 'X', 'J', 'V', 'S', 'D']

/-- The value of a decimal digit. -/
def digitValue (c : Char) : Nat := c.toNat - 48

/-- A text `HH:MM` with `HH` in 00..23 and `MM` in 00..59, and the hour `h` and minute `m` it
denotes. -/
def ClockText (t : List Char) (h m : Nat) : Prop :=
  ∃ a b c d : Char, t = [a, b, ':', c, d] ∧
    a ∈ decimalDigits ∧ b ∈ decimalDigits ∧ c ∈ decimalDigits ∧ d ∈ decimalDigits ∧
    h = 10 * digitValue a + digitValue b ∧ h ≤ 23 ∧
    m = 10 * digitValue c + digitValue d ∧ m ≤ 59

/-- White space only. -/
def Blank (l : List Char) : Prop := ∀ a ∈ l, jsIsSpace a = true

/-- The day part of a segment: a day code, or two day codes joined by a dash that white space
may surround. -/
def DayPart (day : List Char) : Prop :=
  ∃ d1, d1 ∈ dayLetters ∧
    (day = [d1] ∨
      ∃ u1 u2 d2, Blank u1 ∧ Blank u2 ∧ d2 ∈ dayLetters ∧ day = d1 :: (u1 ++ '-' :: (u2 ++ [d2])))

/-- The shape the schedule pattern accepts, with the hours and minutes of its two times: day
part, white space, start time, a dash that white space may surround, end time. -/
def SegmentShape (seg : List Char) (h1 m1 h2 m2 : Nat) : Prop :=
  ∃ day w1 t1 w2 w3 t2, DayPart day ∧ w1 ≠ [] ∧ Blank w1 ∧ ClockText t1 h1 m1 ∧
    Blank w2 ∧ Blank w3 ∧ ClockText t2 h2 m2 ∧
    seg = day ++ (w1 ++ (t1 ++ (w2 ++ '-' :: (w3 ++ t2))))

/-- A segment the code accepts: of the accepted shape, with the start time strictly before the
end time in minutes since midnight. -/
def SegmentFormat (seg : List Char) : Prop :=
  ∃ h1 m1 h2 m2, SegmentShape seg h1 m1 h2 m2 ∧ 60 * h1 + m1 < 60 * h2 + m2

/-- The day part as the specification words it: `DAY` or `DAY-DAY`. -/
def DayPartStated (day : List Char) : Prop :=
  ∃ d1, d1 ∈ dayLetters ∧ (day = [d1] ∨ ∃ d2, d2 ∈ dayLetters ∧ day = [d1, '-', d2])

/-- A segment as the specification words it: exactly `DAY[-DAY] HH:MM-HH:MM`, with the start
time strictly before the end time in minutes since midnight. -/
def SegmentStated (seg : List Char) : Prop :=
  ∃ day t1 h1 m1 t2 h2 m2, DayPartStated day ∧ ClockText t1 h1 m1 ∧ ClockText t2 h2 m2 ∧
    seg = day ++ ' ' :: (t1 ++ '-' :: t2) ∧ 60 * h1 + m1 < 60 * h2 + m2

/-- A valid schedule as the specification words it: not blank, and every comma-separated
segment, trimmed, is a `SegmentStated`. -/
def ScheduleStated (s : List Char) : Prop :=
  ¬ Blank s ∧ ∀ seg ∈ splitOn ',' s, SegmentStated (trimChars seg)

/-- A valid schedule as the code decides it: not blank, and every comma-separated segment that
is not empty once trimmed is a `SegmentFormat`. -/
def ScheduleFormat (s : List Char) : Prop :=
  ¬ Blank s ∧ ∀ seg ∈ splitOn ',' s, trimChars seg ≠ [] → SegmentFormat (trimChars seg)

/-- The name `handlePatientSubmit`, `handleCitaSubmit` and `handleHistSubmit` copy for a doctor
id: the `nombre` of the first doctor with that id, or the empty string. -/
def doctorNameOf (s : Store) (id : String) : String :=
  (((getDoctors s).find? (fun d => d.id == id)).map Doctor.nombre).getD ""

/-- The name `handleCitaSubmit` and `handleHistSubmit` copy for a patient id: the `nombre` of
the first patient with that id, or the empty string. -/
def patientNameOf (s : Store) (id : String) : String :=
  (((getPatients s).find? (fun p => p.id == id)).map Patient.nombre).getD ""

/-- The doctor record a submitted doctor form carries, under a given id. -/
def DoctorForm.record (f : DoctorForm) (id : String) : Doctor :=
  { id := id, nombre := jsTrim f.dNombre, especialidad := jsTrim f.dEspecialidad,
    telefono := jsTrim f.dTelefono, correo := jsTrim f.dCorreo, horario := jsTrim f.dHorario }

/-- The patient record a submitted patient form carries, under a given id. -/
def PatientForm.record (parseInt10 : String → Option Int) (f : PatientForm) (s : Store)
    (id : String) : Patient :=
  { id := id, nombre := jsTrim f.pNombre, edad := parseInt10 f.pEdad, sexo := f.pSexo,
    telefono := jsTrim f.pTelefono, direccion := jsTrim f.pDireccion, medicoId := f.pMedico,
    medicoNombre := doctorNameOf s f.pMedico }

/-- The appointment record a submitted appointment form carries, under a given id. -/
def CitaForm.record (f : CitaForm) (s : Store) (id : String) : Cita :=
  { id := id, pacienteId := f.cPaciente, pacienteNombre := patientNameOf s f.cPaciente,
    doctorId := f.cDoctor, doctorNombre := doctorNameOf s f.cDoctor, fecha := f.cFecha,
    motivo := jsTrim f.cMotivo, estado := f.cEstado }

/-- The history record a submitted history form carries, under a given id. -/
def HistForm.record (f : HistForm) (s : Store) (id : String) : Historial :=
  { id := id, pacienteId := f.hPaciente, pacienteNombre := patientNameOf s f.hPaciente,
    doctorId := f.hDoctor, doctorNombre := doctorNameOf s f.hDoctor, fecha := f.hFecha,
    diagnostico := jsTrim f.hDiagnostico, medicamentos := jsTrim f.hMedicamentos,
    observaciones := jsTrim f.hObservaciones }

/-- An appointment occupies the slot of doctor `d` at time `t`: same doctor, same `fecha`, and
not cancelled. -/
def Cita.occupies (c : Cita) (d t : String) : Prop :=
  c.doctorId = d ∧ c.fecha = t ∧ c.estado ≠ "Cancelada"

instance (c : Cita) (d t : String) : Decidable (c.occupies d t) := by
  unfold Cita.occupies; infer_instance

/-- At most one appointment that is not cancelled for each doctor and time. -/
def NoDoubleBooking (l : List Cita) : Prop :=
  ∀ d t : String, (l.filter (fun c => decide (c.occupies d t))).length ≤ 1

/-- The storages reachable from one with no appointment by the appointment operations: a
submit of the appointment form (create, or update when it carries an id) and a click in the
appointments table (cancel). -/
inductive CitasReachable : Store → Prop where
  | init (s : Store) (h : getCitas s = []) : CitasReachable s
  | submit (e : Entropy) (f : CitaForm) (s : Store) :
      CitasReachable s → CitasReachable (handleCitaSubmit e f s).store
  | click (btn : Option Click) (confirm : Bool) (s : Store) :
      CitasReachable s → CitasReachable (onCitasTableClick btn confirm s)

/-- The list a submit handler saves: with an id, the first record carrying it is replaced, or
nothing changes when no record carries it; without an id, a record with the fresh id is
appended. -/
def upsertList {α : Type} (getId : α → String) (mk : String → α) (id fresh : String)
    (l : List α) : List α :=
  if id ≠ "" then
    match l.findIdx? (fun x => getId x == id) with
    | some idx => l.set idx (mk id)
    | none => l
  else l ++ [mk fresh]

/-- Sample values for one call of `genId`. -/
def sampleEntropy1 : Entropy := { random36 := "0.k3j9x2pq7", now := 1700000001234 }

/-- Sample values for another call of `genId`. -/
def sampleEntropy2 : Entropy := { random36 := "0.z81mfa04c", now := 1700000005678 }

/-- Sample: the form of a new appointment. -/
def sampleCitaForm : CitaForm :=
  { citaId := "", cPaciente := "pac_1", cDoctor := "doc_1", cFecha := "2025-01-10T09:00",
    cMotivo := " Control ", cEstado := "Programada" }

/-- The storage after two creations for the same doctor at different times, followed by an
update that moves the second appointment onto the time of the first. -/
def doubleBooked : Store :=
  let s1 := (handleCitaSubmit sampleEntropy1 sampleCitaForm Store.empty).store
  let s2 := (handleCitaSubmit sampleEntropy2
    { sampleCitaForm with cPaciente := "pac_2", cFecha := "2025-01-10T10:00" } s1).store
  (handleCitaSubmit sampleEntropy1
    { sampleCitaForm with citaId := genId "cit" sampleEntropy2, cPaciente := "pac_2" } s2).store

/-- Sample: a storage holding one user. -/
def sampleUserStore : Store :=
  { users := some [⟨"usr_a1b2c31234", "Admin", "admin", "admin", "Administrador"⟩],
    session := none, patients := none, doctors := none, citas := none, historial := none }

/-- What a submit that passes its checks does to its collection, from the list read before to
the list read after: without an id, the record is appended under the fresh id; with an id that
some record carries, the first such record is replaced by the submitted one; with an id that no
record carries, the list is unchanged. -/
def UpsertOutcome {α : Type} (getId : α → String) (mk : String → α) (id fresh : String)
    (before after : List α) : Prop :=
  (id = "" → after = before ++ [mk fresh]) ∧
  (id ≠ "" → (∃ x ∈ before, getId x = id) →
    mk id ∈ after ∧
    ∃ i, before.findIdx? (fun x => getId x == id) = some i ∧ after = before.set i (mk id)) ∧
  (id ≠ "" → (∀ x ∈ before, getId x ≠ id) → after = before)

/-- Sample: a doctor form that passes the validators and carries an id. -/
def sampleDoctorEdit : DoctorForm :=
  { doctorId := "doc_zzzzzz0000", dNombre := "Dra. Ana", dEspecialidad := "Cardiología",
    dTelefono := "9999-9999", dCorreo := "ana@clinic.com", dHorario := "L-V 09:00-17:00" }

/-- The storages reachable from the empty one by `seedDefaults`, submits of the doctor form and
clicks in the doctors table. -/
inductive DoctorsReachable : Store → Prop where
  | init : DoctorsReachable Store.empty
  | seed (e : Nat → Entropy) (s : Store) : DoctorsReachable s → DoctorsReachable (seedDefaults e s)
  | submit (e : Entropy) (f : DoctorForm) (s : Store) :
      DoctorsReachable s → DoctorsReachable (handleDoctorSubmit e f s).store
  | click (btn : Option Click) (confirm : Bool) (s : Store) :
      DoctorsReachable s → DoctorsReachable (onDoctorsTableClick btn confirm s)

/-- The three accounts `seedDefaults` inserts. -/
def seedUserList (e : Nat → Entropy) : List User :=
  [ { id := genId "usr" (e 0), nombre := "Admin", usuario := "admin", password := "admin",
      rol := "Administrador" },
    { id := genId "usr" (e 1), nombre := "Dra. Demo", usuario := "doctor", password := "doctor",
      rol := "Doctor" },
    { id := genId "usr" (e 2), nombre := "Recep Demo", usuario := "recep", password := "recep",
      rol := "Recepcionista" } ]

/-- The two doctors `seedDefaults` inserts. -/
def seedDoctorList (e : Nat → Entropy) : List Doctor :=
  [ { id := genId "doc" (e 3), nombre := "Dra. Sofía Pérez", especialidad := "Medicina General",
      telefono := "999-111-2222", correo := "sofia@clinic.com", horario := "L-V 9:00-17:00" },
    { id := genId "doc" (e 4), nombre := "Dr. Luis García", especialidad := "Pediatría",
      telefono := "999-333-4444", correo := "luis@clinic.com", horario := "L-V 10:00-16:00" } ]

/-- An update in place, from the list read before to the list read after, for a submitted
record `r` carrying the id `id`: same length; when no record has the id, the same list; when
some record has it, the lists agree at every position but that of the first such record, which
now holds `r`. -/
def UpdateInPlace {α : Type} (getId : α → String) (r : α) (id : String)
    (before after : List α) : Prop :=
  getId r = id ∧
  after.length = before.length ∧
  ((∀ x ∈ before, getId x ≠ id) → after = before) ∧
  ((∃ x ∈ before, getId x = id) →
    ∃ i : Nat, (∃ x, before[i]? = some x ∧ getId x = id) ∧
      (∀ (j : Nat) (x : α), j < i → before[j]? = some x → getId x ≠ id) ∧
      after[i]? = some r ∧
      ∀ j : Nat, j ≠ i → after[j]? = before[j]?)

/-- The name copied for a foreign id out of a list of records: the name of the first record
with that id, or the empty string when no record has it. -/
def NameResolved {α : Type} (getId getName : α → String) (l : List α) (id name : String) :
    Prop :=
  (∃ pre x post, l = pre ++ x :: post ∧ getId x = id ∧ (∀ y ∈ pre, getId y ≠ id) ∧
    name = getName x) ∨
  ((∀ y ∈ l, getId y ≠ id) ∧ name = "")

/-- The message of `validateSchedule` for a segment that does not match the pattern. -/
def formatMessage (n : Nat) : String :=
  "Formato inválido en tramo " ++ toString n ++ ". Ej: L-V 09:00-17:00"

/-- The message of `validateSchedule` for a segment whose start is not before its end. -/
def rangeMessage (n : Nat) : String :=
  "Rango horario inválido en tramo " ++ toString n ++ " (inicio debe ser menor que fin)"

/-- The 1-based position `n` in `segs` of the first segment that fails, that is, that is not a
`SegmentFormat`. -/
def FirstFailureAt (segs : List (List Char)) (n : Nat) : Prop :=
  1 ≤ n ∧ (∃ seg, segs[n - 1]? = some seg ∧ ¬ SegmentFormat seg) ∧
    ∀ (j : Nat) (seg : List Char), j < n - 1 → segs[j]? = some seg → SegmentFormat seg

/-- The way a segment fails, with the message for position `n`: it has not the shape of the
pattern, or it has and its start is not before its end. -/
def FailureMessage (seg : List Char) (n : Nat) (msg : String) : Prop :=
  ((¬ ∃ h1 m1 h2 m2, SegmentShape seg h1 m1 h2 m2) ∧ msg = formatMessage n) ∨
  ((∃ h1 m1 h2 m2, SegmentShape seg h1 m1 h2 m2 ∧ 60 * h2 + m2 ≤ 60 * h1 + m1) ∧
    msg = rangeMessage n)

/-- ASCII lower-casing, a sample of `String.prototype.toLowerCase`. -/
def asciiLower (s : String) : String := String.mk (s.data.map Char.toLower)

/-- No two records of a users list, at distinct positions, have the same `usuario` up to letter
case, with `lower` as `String.prototype.toLowerCase`. -/
def CaseDistinct (lower : String → String) (l : List User) : Prop :=
  l.Pairwise (fun a b => lower a.usuario ≠ lower b.usuario)

/-- The storages reachable from the empty one by `seedDefaults` and `registerUser`. -/
inductive UsersReachable (lower : String → String) : Store → Prop where
  | init : UsersReachable lower Store.empty
  | seed (e : Nat → Entropy) (s : Store) :
      UsersReachable lower s → UsersReachable lower (seedDefaults e s)
  | register (e : Entropy) (n : NewUser) (s : Store) :
      UsersReachable lower s → UsersReachable lower (registerUser lower e n s).2

/-- The phone format as the comment above `isPhoneIntl` words it: with white space,
parentheses, dots and dashes removed, 7 to 15 decimal digits, with or without a `+` in front. -/
def PhoneFormatLoose (s : List Char) : Prop :=
  let t := s.filter (fun c => !(jsIsSpace c || c = '(' || c = ')' || c = '.' || c = '-'))
  (∃ ds, t = '+' :: ds ∧ 7 ≤ ds.length ∧ ds.length ≤ 15 ∧ ∀ d ∈ ds, d ∈ decimalDigits) ∨
  (7 ≤ t.length ∧ t.length ≤ 15 ∧ ∀ d ∈ t, d ∈ decimalDigits)

/-- The checks of `handleDoctorSubmit`: the three validators on the trimmed fields. -/
def DoctorForm.passes (f : DoctorForm) : Prop :=
  isPhoneIntl (jsTrim f.dTelefono) = true ∧ isEmail (jsTrim f.dCorreo) = true ∧
    (validateSchedule (jsTrim f.dHorario)).valid = true

/-- The check of `handlePatientSubmit`: the phone validator on the trimmed field. -/
def PatientForm.passes (f : PatientForm) : Prop := isPhoneIntl (jsTrim f.pTelefono) = true

/-- The checks of `handleCitaSubmit`: a patient, a doctor and a `fecha`, and for a form
without an id no stored appointment in the same slot. -/
def CitaForm.passes (f : CitaForm) (s : Store) : Prop :=
  f.cPaciente ≠ "" ∧ f.cDoctor ≠ "" ∧ f.cFecha ≠ "" ∧
    ¬ (f.citaId = "" ∧ ∃ c ∈ getCitas s, c.occupies f.cDoctor f.cFecha)

/-- The checks of `handleHistSubmit`: a patient, a doctor and a `fecha`. -/
def HistForm.passes (f : HistForm) : Prop := f.hPaciente ≠ "" ∧ f.hDoctor ≠ "" ∧ f.hFecha ≠ ""

/-- Sample: a doctor form without an id that passes the validators. -/
def sampleDoctorNew : DoctorForm :=
  { doctorId := "", dNombre := " Dra. Ana ", dEspecialidad := "Cardiología",
    dTelefono := "9999-9999", dCorreo := "ana@clinic.com", dHorario := "L-V 09:00-17:00" }

/-- Sample: a storage holding one doctor and one patient. -/
def sampleClinicStore : Store :=
  { users := none, session := none,
    patients := some [⟨"pac_1", "Luis Mora", some 34, "M", "9999-9999", "Calle 1", "doc_1",
      "Dr. Ana Ruiz"⟩],
    doctors := some [⟨"doc_1", "Dra. Ana Ruiz", "Cardiología", "9999-9999", "ana@clinic.com",
      "L-V 09:00-17:00"⟩],
    citas := some [⟨"cit_1", "pac_1", "Luis Mora", "doc_1", "Dra. Ana Ruiz", "2025-01-10T09:00",
      "Control", "Programada"⟩],
    historial := some [⟨"his_1", "pac_1", "Luis Mora", "doc_1", "Dra. Ana Ruiz", "2025-01-10",
      "Gripe", "Reposo", ""⟩] }

/-- Sample: a doctor form that edits the stored doctor `doc_1`. -/
def sampleDoctorUpdate : DoctorForm :=
  { doctorId := "doc_1", dNombre := "Dra. Ana Ruiz", dEspecialidad := "Medicina Interna",
    dTelefono := "+1 202-555-0123", dCorreo := "ana@clinic.com", dHorario := "L-V 08:00-14:00" }

/-- Sample: a patient form, without an id when `id` is empty. -/
def samplePatientForm (id : String) : PatientForm :=
  { patientId := id, pNombre := "Luis Mora", pEdad := "35", pSexo := "M",
    pTelefono := "9999-9999", pDireccion := "Calle 2", pMedico := "doc_1" }

/-- Sample: a history form, without an id when `id` is empty. -/
def sampleHistForm (id : String) : HistForm :=
  { hId := id, hPaciente := "pac_1", hDoctor := "doc_9", hFecha := "2025-02-01",
    hDiagnostico := "Control", hMedicamentos := "", hObservaciones := "" }

/-! ## Lemmas on the regular expressions and the string primitives -/

theorem mem_run_cls (p : Char → Bool) (s rest : List Char) (c c1 : Caps) :
    (rest, c1) ∈ run (.cls p) s c ↔ c1 = c ∧ ∃ a, s = a :: rest ∧ p a = true := by
  cases s with
  | nil => simp [run]
  | cons a t =>
    by_cases h : p a = true
    · simp only [run, h, if_true, List.mem_singleton, Prod.mk.injEq, List.cons.injEq]
      constructor
      · rintro ⟨rfl, rfl⟩; exact ⟨rfl, a, ⟨rfl, rfl⟩, h⟩
      · rintro ⟨rfl, b, ⟨rfl, rfl⟩, _⟩; exact ⟨rfl, rfl⟩
    · simp only [run, h, List.cons.injEq]
      constructor
      · intro hh; simp at hh
      · rintro ⟨_, b, ⟨rfl, _⟩, hb⟩; exact absurd hb h

theorem mem_run_eps (s rest : List Char) (c c1 : Caps) :
    (rest, c1) ∈ run .eps s c ↔ c1 = c ∧ rest = s := by
  simp [run]; tauto

theorem mem_run_eos (s rest : List Char) (c c1 : Caps) :
    (rest, c1) ∈ run .eos s c ↔ c1 = c ∧ rest = [] ∧ s = [] := by
  cases s <;> simp [run]; tauto

theorem mem_run_seq (a b : RE) (s rest : List Char) (c c1 : Caps) :
    (rest, c1) ∈ run (.seq a b) s c ↔
      ∃ mid cm, (mid, cm) ∈ run a s c ∧ (rest, c1) ∈ run b mid cm := by
  simp [run, List.mem_flatMap]

theorem mem_run_alt (a b : RE) (s rest : List Char) (c c1 : Caps) :
    (rest, c1) ∈ run (.alt a b) s c ↔ (rest, c1) ∈ run a s c ∨ (rest, c1) ∈ run b s c := by
  simp [run]

theorem mem_run_group (n : Nat) (a : RE) (s rest : List Char) (c c1 : Caps) :
    (rest, c1) ∈ run (.group n a) s c ↔
      ∃ c0, (rest, c0) ∈ run a s c ∧ c1 = (n, s.take (s.length - rest.length)) :: c0 := by
  simp [run]
  constructor
  · rintro ⟨r, c0, h, rfl, rfl⟩; exact ⟨c0, h, rfl⟩
  · rintro ⟨c0, h, rfl⟩; exact ⟨rest, c0, h, rfl, rfl⟩

theorem mem_iter_cls (p : Char → Bool) (n : Nat) : ∀ (s rest : List Char) (c c1 : Caps),
    s.length ≤ n →
    ((rest, c1) ∈ iter (fun s1 c2 => run (.cls p) s1 c2) n s c ↔
      c1 = c ∧ ∃ pre, s = pre ++ rest ∧ ∀ a ∈ pre, p a = true) := by
  induction n with
  | zero =>
    intro s rest c c1 hs
    have hs0 : s = [] := List.length_eq_zero.mp (Nat.le_zero.mp hs)
    subst hs0
    simp only [iter, List.mem_singleton, Prod.mk.injEq]
    constructor
    · rintro ⟨rfl, rfl⟩; exact ⟨rfl, [], rfl, by simp⟩
    · rintro ⟨rfl, pre, h, _⟩
      have := List.append_eq_nil.mp h.symm
      exact ⟨this.2, rfl⟩
  | succ n ih =>
    intro s rest c c1 hs
    simp only [iter, List.mem_append, List.mem_flatMap, List.mem_filter, List.mem_singleton,
      Prod.mk.injEq, Prod.exists, decide_eq_true_eq]
    constructor
    · rintro (⟨t, ct, ⟨hmem, hlt⟩, hrec⟩ | ⟨rfl, rfl⟩)
      · obtain ⟨rfl, a, rfl, ha⟩ := (mem_run_cls p s t c ct).mp hmem
        have hlen : t.length ≤ n := by simpa using hs
        obtain ⟨rfl, pre, rfl, hpre⟩ := (ih t rest ct c1 hlen).mp hrec
        refine ⟨rfl, a :: pre, rfl, ?_⟩
        intro b hb
        rcases List.mem_cons.mp hb with rfl | hb
        · exact ha
        · exact hpre b hb
      · exact ⟨rfl, [], rfl, by simp⟩
    · rintro ⟨rfl, pre, rfl, hpre⟩
      cases pre with
      | nil => right; exact ⟨rfl, rfl⟩
      | cons a pre =>
        left
        refine ⟨pre ++ rest, c1, ⟨?_, ?_⟩, ?_⟩
        · exact (mem_run_cls p _ _ c1 c1).mpr ⟨rfl, a, rfl, hpre a (List.mem_cons_self _ _)⟩
        · simp
        · have hlen : (pre ++ rest).length ≤ n := by simpa using hs
          exact (ih (pre ++ rest) rest c1 c1 hlen).mpr
            ⟨rfl, pre, rfl, fun b hb => hpre b (List.mem_cons_of_mem _ hb)⟩

theorem mem_run_star_cls (p : Char → Bool) (s rest : List Char) (c c1 : Caps) :
    (rest, c1) ∈ run (.star (.cls p)) s c ↔
      c1 = c ∧ ∃ pre, s = pre ++ rest ∧ ∀ a ∈ pre, p a = true := by
  simp only [run]
  exact mem_iter_cls p s.length s rest c c1 (Nat.le_refl _)

theorem mem_run_plus_cls (p : Char → Bool) (s rest : List Char) (c c1 : Caps) :
    (rest, c1) ∈ run (RE.plus (.cls p)) s c ↔
      c1 = c ∧ ∃ pre, s = pre ++ rest ∧ pre ≠ [] ∧ ∀ a ∈ pre, p a = true := by
  simp only [RE.plus, mem_run_seq, mem_run_cls, mem_run_star_cls]
  constructor
  · rintro ⟨mid, cm, ⟨rfl, a, rfl, ha⟩, rfl, pre, rfl, hpre⟩
    refine ⟨rfl, a :: pre, rfl, by simp, ?_⟩
    intro b hb
    rcases List.mem_cons.mp hb with rfl | hb
    · exact ha
    · exact hpre b hb
  · rintro ⟨rfl, pre, rfl, hne, hpre⟩
    cases pre with
    | nil => exact absurd rfl hne
    | cons a pre =>
      exact ⟨pre ++ rest, c1, ⟨rfl, a, rfl, hpre a (List.mem_cons_self _ _)⟩, rfl, pre, rfl,
        fun b hb => hpre b (List.mem_cons_of_mem _ hb)⟩

theorem mem_run_exactly_cls (p : Char → Bool) (k : Nat) : ∀ (s rest : List Char) (c c1 : Caps),
    ((rest, c1) ∈ run (RE.exactly (.cls p) k) s c ↔
      c1 = c ∧ ∃ pre, s = pre ++ rest ∧ pre.length = k ∧ ∀ a ∈ pre, p a = true) := by
  induction k with
  | zero =>
    intro s rest c c1
    simp only [RE.exactly, mem_run_eps]
    constructor
    · rintro ⟨rfl, rfl⟩; exact ⟨rfl, [], rfl, rfl, by simp⟩
    · rintro ⟨rfl, pre, rfl, hlen, _⟩
      have : pre = [] := List.length_eq_zero.mp hlen
      subst this; exact ⟨rfl, rfl⟩
  | succ k ih =>
    intro s rest c c1
    simp only [RE.exactly, mem_run_seq, mem_run_cls, ih]
    constructor
    · rintro ⟨mid, cm, ⟨rfl, a, rfl, ha⟩, rfl, pre, rfl, hlen, hpre⟩
      refine ⟨rfl, a :: pre, rfl, by simp [hlen], ?_⟩
      intro b hb
      rcases List.mem_cons.mp hb with rfl | hb
      · exact ha
      · exact hpre b hb
    · rintro ⟨rfl, pre, rfl, hlen, hpre⟩
      cases pre with
      | nil => simp at hlen
      | cons a pre =>
        exact ⟨pre ++ rest, c1, ⟨rfl, a, rfl, hpre a (List.mem_cons_self _ _)⟩, rfl, pre, rfl,
          by simpa using hlen, fun b hb => hpre b (List.mem_cons_of_mem _ hb)⟩

theorem mem_run_upTo_cls (p : Char → Bool) (k : Nat) : ∀ (s rest : List Char) (c c1 : Caps),
    ((rest, c1) ∈ run (RE.upTo (.cls p) k) s c ↔
      c1 = c ∧ ∃ pre, s = pre ++ rest ∧ pre.length ≤ k ∧ ∀ a ∈ pre, p a = true) := by
  induction k with
  | zero =>
    intro s rest c c1
    simp only [RE.upTo, mem_run_eps]
    constructor
    · rintro ⟨rfl, rfl⟩; exact ⟨rfl, [], rfl, Nat.le_refl _, by simp⟩
    · rintro ⟨rfl, pre, rfl, hlen, _⟩
      have : pre = [] := List.length_eq_zero.mp (Nat.le_zero.mp hlen)
      subst this; exact ⟨rfl, rfl⟩
  | succ k ih =>
    intro s rest c c1
    simp only [RE.upTo, mem_run_alt, mem_run_seq, mem_run_cls, mem_run_eps, ih]
    constructor
    · rintro (⟨mid, cm, ⟨rfl, a, rfl, ha⟩, rfl, pre, rfl, hlen, hpre⟩ | ⟨rfl, rfl⟩)
      · refine ⟨rfl, a :: pre, rfl, by simpa using hlen, ?_⟩
        intro b hb
        rcases List.mem_cons.mp hb with rfl | hb
        · exact ha
        · exact hpre b hb
      · exact ⟨rfl, [], rfl, Nat.zero_le _, by simp⟩
    · rintro ⟨rfl, pre, rfl, hlen, hpre⟩
      cases pre with
      | nil => right; exact ⟨rfl, rfl⟩
      | cons a pre =>
        left
        exact ⟨pre ++ rest, c1, ⟨rfl, a, rfl, hpre a (List.mem_cons_self _ _)⟩, rfl, pre, rfl,
          by simpa using hlen, fun b hb => hpre b (List.mem_cons_of_mem _ hb)⟩

theorem mem_run_rep_cls (p : Char → Bool) (m n : Nat) (hmn : m ≤ n) (s rest : List Char)
    (c c1 : Caps) :
    ((rest, c1) ∈ run (RE.rep (.cls p) m n) s c ↔
      c1 = c ∧ ∃ pre, s = pre ++ rest ∧ m ≤ pre.length ∧ pre.length ≤ n ∧
        ∀ a ∈ pre, p a = true) := by
  simp only [RE.rep, mem_run_seq, mem_run_exactly_cls, mem_run_upTo_cls]
  constructor
  · rintro ⟨mid, cm, ⟨rfl, p1, rfl, hl1, hp1⟩, rfl, p2, rfl, hl2, hp2⟩
    refine ⟨rfl, p1 ++ p2, by simp, by simp [hl1], by simp [hl1]; omega, ?_⟩
    intro b hb
    rcases List.mem_append.mp hb with hb | hb
    · exact hp1 b hb
    · exact hp2 b hb
  · rintro ⟨rfl, pre, rfl, hm, hn, hpre⟩
    refine ⟨pre.drop m ++ rest, c1, ⟨rfl, pre.take m, ?_, ?_, ?_⟩, rfl, pre.drop m, rfl, ?_, ?_⟩
    · rw [← List.append_assoc, List.take_append_drop]
    · simp [hm]
    · intro b hb; exact hpre b (List.mem_of_mem_take hb)
    · simp; omega
    · intro b hb; exact hpre b (List.mem_of_mem_drop hb)

theorem jsIsDigit_iff (c : Char) : jsIsDigit c = true ↔ c ∈ decimalDigits := by
  constructor
  · intro h
    simp only [jsIsDigit, Bool.and_eq_true, decide_eq_true_eq] at h
    have hc : c = Char.ofNat c.toNat := (Char.ofNat_toNat c).symm
    obtain ⟨h1, h2⟩ := h
    generalize c.toNat = n at hc h1 h2
    subst hc
    interval_cases n <;> decide
  · intro h
    simp only [decimalDigits, List.mem_cons, List.mem_singleton, List.not_mem_nil, or_false] at h
    rcases h with rfl | rfl | rfl | rfl | rfl | rfl | rfl | rfl | rfl | rfl <;> decide

theorem jsIsAlpha_iff (c : Char) : jsIsAlpha c = true ↔ c ∈ latinLetters := by
  constructor
  · intro h
    simp only [jsIsAlpha, Bool.and_eq_true, Bool.or_eq_true, decide_eq_true_eq] at h
    have hc : c = Char.ofNat c.toNat := (Char.ofNat_toNat c).symm
    generalize c.toNat = n at hc h
    subst hc
    rcases h with ⟨h1, h2⟩ | ⟨h1, h2⟩ <;> interval_cases n <;> decide
  · intro h
    simp only [latinLetters, List.mem_cons, List.mem_singleton, List.not_mem_nil, or_false] at h
    rcases h with rfl | rfl | rfl | rfl | rfl | rfl | rfl | rfl | rfl | rfl | rfl | rfl | rfl |
      rfl | rfl | rfl | rfl | rfl | rfl | rfl | rfl | rfl | rfl | rfl | rfl | rfl | rfl | rfl |
      rfl | rfl | rfl | rfl | rfl | rfl | rfl | rfl | rfl | rfl | rfl | rfl | rfl | rfl | rfl |
      rfl | rfl | rfl | rfl | rfl | rfl | rfl | rfl | rfl <;> decide

theorem trimChars_decomp (l : List Char) :
    ∃ w1 w2, l = w1 ++ trimChars l ++ w2 ∧ (∀ a ∈ w1, jsIsSpace a = true) ∧
      (∀ a ∈ w2, jsIsSpace a = true) := by
  refine ⟨l.takeWhile jsIsSpace,
    (((l.dropWhile jsIsSpace).reverse).takeWhile jsIsSpace).reverse, ?_, ?_, ?_⟩
  · have h1 : l = l.takeWhile jsIsSpace ++ l.dropWhile jsIsSpace :=
      (List.takeWhile_append_dropWhile _ _).symm
    have h2 : (l.dropWhile jsIsSpace).reverse =
        ((l.dropWhile jsIsSpace).reverse).takeWhile jsIsSpace ++
        ((l.dropWhile jsIsSpace).reverse).dropWhile jsIsSpace :=
      (List.takeWhile_append_dropWhile _ _).symm
    have h3 : l.dropWhile jsIsSpace =
        (((l.dropWhile jsIsSpace).reverse).dropWhile jsIsSpace).reverse ++
        (((l.dropWhile jsIsSpace).reverse).takeWhile jsIsSpace).reverse := by
      rw [← List.reverse_append, ← h2, List.reverse_reverse]
    unfold trimChars
    rw [List.append_assoc, ← h3]
    exact h1
  · intro a ha; exact List.mem_takeWhile_imp ha
  · intro a ha; exact List.mem_takeWhile_imp (List.mem_reverse.mp ha)

theorem filter_eq_nil_of_space (q : Char → Bool) (hq : ∀ a, jsIsSpace a = true → q a = false)
    (w : List Char) (hw : ∀ a ∈ w, jsIsSpace a = true) : w.filter q = [] := by
  rw [List.filter_eq_nil_iff]
  intro a ha; simp [hq a (hw a ha)]

theorem filter_trimChars (q : Char → Bool) (hq : ∀ a, jsIsSpace a = true → q a = false)
    (l : List Char) : (trimChars l).filter q = l.filter q := by
  obtain ⟨w1, w2, h, h1, h2⟩ := trimChars_decomp l
  conv_rhs => rw [h]
  simp [List.filter_append, filter_eq_nil_of_space q hq w1 h1, filter_eq_nil_of_space q hq w2 h2]

theorem reTest_iff (r : RE) (s : List Char) :
    reTest r s = true ↔ ∃ rest c, (rest, c) ∈ run r s [] := by
  unfold reTest
  cases h : run r s [] with
  | nil => simp
  | cons x xs => simp; exact ⟨x.1, x.2, Or.inl rfl⟩

theorem reTest_digits (m n : Nat) (hmn : m ≤ n) (t : List Char) :
    reTest (.seq (RE.rep (.cls jsIsDigit) m n) .eos) t = true ↔
      m ≤ t.length ∧ t.length ≤ n ∧ ∀ a ∈ t, a ∈ decimalDigits := by
  simp only [reTest_iff, mem_run_seq, mem_run_rep_cls _ _ _ hmn, mem_run_eos, jsIsDigit_iff]
  constructor
  · rintro ⟨rest, c, mid, cm, ⟨rfl, pre, rfl, h1, h2, h3⟩, rfl, rfl, hmid⟩
    subst hmid
    simpa using ⟨h1, h2, h3⟩
  · rintro ⟨h1, h2, h3⟩
    exact ⟨[], [], [], [], ⟨rfl, t, by simp, h1, h2, h3⟩, rfl, rfl, rfl⟩

theorem isPhoneIntlChars_iff (v : List Char) : isPhoneIntlChars v = true ↔ PhoneFormat v := by
  have hq : ∀ a, jsIsSpace a = true → (fun c => !isPhoneSep c) a = false := by
    intro a ha; simp [isPhoneSep, ha]
  have hf : (trimChars v).filter (fun c => !isPhoneSep c) = v.filter (fun c => !isPhoneSep c) :=
    filter_trimChars _ hq v
  have hsame : v.filter (fun c => !(jsIsSpace c || c = '(' || c = ')' || c = '.' || c = '-'))
      = v.filter (fun c => !isPhoneSep c) := by
    congr 1
  unfold PhoneFormat
  simp only [hsame]
  unfold isPhoneIntlChars
  by_cases hv : v.isEmpty = true
  · have : v = [] := List.isEmpty_iff.mp hv
    subst this
    simp [decimalDigits]
  · simp only [hv, if_false, Bool.false_eq_true]
    by_cases ht : (trimChars v).isEmpty = true
    · have h0 : trimChars v = [] := List.isEmpty_iff.mp ht
      have : v.filter (fun c => !isPhoneSep c) = [] := by rw [← hf, h0]; rfl
      simp [ht, this]
    · simp only [ht, if_false, Bool.false_eq_true, hf]
      generalize v.filter (fun c => !isPhoneSep c) = t
      split
      · rename_i t1
        rw [show rePhonePlus = .seq (RE.rep (.cls jsIsDigit) 8 15) .eos from rfl,
          reTest_digits 8 15 (by decide)]
        constructor
        · intro h; exact Or.inl ⟨t1, rfl, h⟩
        · rintro (⟨ds, hds, h⟩ | ⟨_, _, h⟩)
          · cases hds; exact h
          · exact absurd (h _ (List.mem_cons_self _ _)) (by decide)
      · rename_i hne
        rw [show rePhoneLocal = .seq (RE.rep (.cls jsIsDigit) 7 15) .eos from rfl,
          reTest_digits 7 15 (by decide)]
        constructor
        · intro h; exact Or.inr h
        · rintro (⟨ds, hds, _⟩ | h)
          · exact absurd hds (hne ds)
          · exact h

theorem mem_run_chr (x : Char) (s rest : List Char) (c c1 : Caps) :
    (rest, c1) ∈ run (RE.chr x) s c ↔ c1 = c ∧ s = x :: rest := by
  simp only [RE.chr, mem_run_cls]
  constructor
  · rintro ⟨rfl, a, rfl, ha⟩
    have : a = x := by simpa using ha
    subst this; exact ⟨rfl, rfl⟩
  · rintro ⟨rfl, rfl⟩; exact ⟨rfl, x, rfl, by simp⟩

theorem isLocalChar_iff (a : Char) : isLocalChar a = true ↔ (jsIsSpace a = false ∧ a ≠ '@') := by
  simp [isLocalChar]

theorem isDomainChar_iff (a : Char) :
    isDomainChar a = true ↔ (a ∈ latinLetters ∨ a ∈ decimalDigits ∨ a = '.' ∨ a = '-') := by
  simp only [isDomainChar, Bool.or_eq_true, jsIsAlpha_iff, jsIsDigit_iff, beq_iff_eq, or_assoc]

theorem reTest_reEmail (s : List Char) : reTest reEmail s = true ↔ EmailFormat s := by
  simp only [reTest_iff, reEmail, mem_run_seq, mem_run_plus_cls, mem_run_chr,
    mem_run_rep_cls _ 2 24 (by decide), mem_run_eos, EmailFormat, isLocalChar_iff,
    isDomainChar_iff, jsIsAlpha_iff]
  constructor
  · rintro ⟨rest, c, m1, c1, ⟨rfl, loc, rfl, hloc, hl⟩, m2, c2, ⟨rfl, rfl⟩, m3, c3,
      ⟨rfl, dom, rfl, hdom, hd⟩, m4, c4, ⟨rfl, rfl⟩, m5, c5, ⟨rfl, tld, rfl, h2, h24, ht⟩,
      rfl, rfl, hm5⟩
    subst hm5
    exact ⟨loc, dom, tld, by simp, hloc, hl, hdom, hd, h2, h24, ht⟩
  · rintro ⟨loc, dom, tld, rfl, hloc, hl, hdom, hd, h2, h24, ht⟩
    exact ⟨[], [], _, [], ⟨rfl, loc, rfl, hloc, hl⟩, _, [], ⟨rfl, rfl⟩, _, [],
      ⟨rfl, dom, rfl, hdom, hd⟩, _, [], ⟨rfl, rfl⟩, [], [], ⟨rfl, tld, by simp, h2, h24, ht⟩,
      rfl, rfl, rfl⟩

theorem isEmailChars_iff (v : List Char) : isEmailChars v = true ↔ EmailFormat v := by
  unfold isEmailChars
  by_cases hv : v.isEmpty = true
  · have : v = [] := List.isEmpty_iff.mp hv
    subst this
    simp only [List.isEmpty_nil, if_true, Bool.false_eq_true, false_iff]
    rintro ⟨loc, dom, tld, h, hloc, _⟩
    cases loc with
    | nil => exact hloc rfl
    | cons a l => simp at h
  · simp only [hv, if_false, Bool.false_eq_true]
    exact reTest_reEmail v

theorem mem_decimalDigits_iff (c : Char) : c ∈ decimalDigits ↔ 48 ≤ c.toNat ∧ c.toNat ≤ 57 := by
  rw [← jsIsDigit_iff]; simp [jsIsDigit]

theorem char_eq_iff_toNat (a b : Char) : a = b ↔ a.toNat = b.toNat := by
  constructor
  · rintro rfl; rfl
  · intro h
    rw [← Char.ofNat_toNat a, ← Char.ofNat_toNat b, h]

theorem isDayChar_iff (c : Char) : isDayChar c = true ↔ c ∈ dayLetters := by
  simp [isDayChar, dayLetters, or_assoc]

theorem mem_run_cls2 (p q : Char → Bool) (s rest : List Char) (c c1 : Caps) :
    (rest, c1) ∈ run (.seq (.cls p) (.cls q)) s c ↔
      c1 = c ∧ ∃ a b, s = a :: b :: rest ∧ p a = true ∧ q b = true := by
  simp only [mem_run_seq, mem_run_cls]
  constructor
  · rintro ⟨mid, cm, ⟨rfl, a, rfl, ha⟩, rfl, b, rfl, hb⟩
    exact ⟨rfl, a, b, rfl, ha, hb⟩
  · rintro ⟨rfl, a, b, rfl, ha, hb⟩
    exact ⟨_, c1, ⟨rfl, a, rfl, ha⟩, rfl, b, rfl, hb⟩

theorem hour_chars (a b : Char) :
    ((a = '0' ∨ a = '1') ∧ jsIsDigit b = true) ∨
      (a = '2' ∧ (48 ≤ b.toNat ∧ b.toNat ≤ 51)) ↔
    a ∈ decimalDigits ∧ b ∈ decimalDigits ∧ 10 * digitValue a + digitValue b ≤ 23 := by
  simp only [mem_decimalDigits_iff, digitValue, char_eq_iff_toNat, jsIsDigit, Bool.and_eq_true,
    decide_eq_true_eq]
  have h0 : ('0' : Char).toNat = 48 := rfl
  have h1 : ('1' : Char).toNat = 49 := rfl
  have h2 : ('2' : Char).toNat = 50 := rfl
  rw [h0, h1, h2]
  omega

theorem minute_chars (a b : Char) :
    ((48 ≤ a.toNat ∧ a.toNat ≤ 53) ∧ jsIsDigit b = true) ↔
    a ∈ decimalDigits ∧ b ∈ decimalDigits ∧ 10 * digitValue a + digitValue b ≤ 59 := by
  simp only [mem_decimalDigits_iff, digitValue, jsIsDigit, Bool.and_eq_true, decide_eq_true_eq]
  omega

theorem mem_run_reClock (s rest : List Char) (c c1 : Caps) :
    (rest, c1) ∈ run reClock s c ↔
      c1 = c ∧ ∃ t h m, ClockText t h m ∧ s = t ++ rest := by
  simp only [reClock, mem_run_seq, mem_run_alt, mem_run_cls, mem_run_chr]
  constructor
  · rintro ⟨mid, cm, hh, m2, c2, ⟨rfl, rfl⟩, m3, c3, ⟨rfl, x, rfl, hx⟩, rfl, y, rfl, hy⟩
    have hxy := (minute_chars x y).mp ⟨by simpa using hx, hy⟩
    have key : ∀ a b, s = a :: b :: ':' :: x :: y :: rest →
        (((a = '0' ∨ a = '1') ∧ jsIsDigit b = true) ∨
          (a = '2' ∧ (48 ≤ b.toNat ∧ b.toNat ≤ 51))) →
        ∃ t h m, ClockText t h m ∧ s = t ++ rest := by
      intro a b hs hab
      have := (hour_chars a b).mp hab
      exact ⟨[a, b, ':', x, y], _, _, ⟨a, b, x, y, rfl, this.1, this.2.1, hxy.1, hxy.2.1,
        rfl, this.2.2, rfl, hxy.2.2⟩, by simpa using hs⟩
    rcases hh with ⟨m1, c0, ⟨rfl, a, rfl, ha⟩, rfl, b, rfl, hb⟩ |
      ⟨m1, c0, ⟨rfl, rfl⟩, rfl, b, rfl, hb⟩
    · exact ⟨rfl, key a b rfl (Or.inl ⟨by simpa using ha, hb⟩)⟩
    · exact ⟨rfl, key '2' b rfl (Or.inr ⟨rfl, by simpa using hb⟩)⟩
  · rintro ⟨rfl, t, h, m, ⟨a, b, x, y, rfl, ha, hb, hx, hy, rfl, hh, rfl, hm⟩, rfl⟩
    have h1 := (hour_chars a b).mpr ⟨ha, hb, hh⟩
    have h2 := (minute_chars x y).mpr ⟨hx, hy, hm⟩
    refine ⟨':' :: x :: y :: rest, c1, ?_, _, c1, ⟨rfl, rfl⟩, _, c1,
      ⟨rfl, x, rfl, by simpa using h2.1⟩, rfl, y, rfl, h2.2⟩
    rcases h1 with ⟨ha, hb⟩ | ⟨ha, hb⟩
    · left; exact ⟨_, c1, ⟨rfl, a, rfl, by simpa using ha⟩, rfl, b, rfl, hb⟩
    · right; subst ha; exact ⟨_, c1, ⟨rfl, rfl⟩, rfl, b, rfl, by simpa using hb⟩

theorem take_append_sub (pre rest : List Char) :
    (pre ++ rest).take ((pre ++ rest).length - rest.length) = pre := by
  simp

theorem mem_run_reDash (s rest : List Char) (c c1 : Caps) :
    (rest, c1) ∈ run reDash s c ↔
      c1 = c ∧ ∃ w2 w3, Blank w2 ∧ Blank w3 ∧ s = w2 ++ '-' :: (w3 ++ rest) := by
  simp only [reDash, mem_run_seq, mem_run_star_cls, mem_run_chr]
  constructor
  · rintro ⟨m1, c2, ⟨rfl, w2, rfl, hw2⟩, m2, c3, ⟨rfl, rfl⟩, rfl, w3, rfl, hw3⟩
    exact ⟨rfl, w2, w3, hw2, hw3, rfl⟩
  · rintro ⟨rfl, w2, w3, hw2, hw3, rfl⟩
    exact ⟨_, c1, ⟨rfl, w2, rfl, hw2⟩, _, c1, ⟨rfl, rfl⟩, rfl, w3, rfl, hw3⟩

theorem mem_run_dayPart (s rest : List Char) (c c1 : Caps) :
    (rest, c1) ∈ run (.seq (.cls isDayChar) (RE.opt (.seq reDash (.cls isDayChar)))) s c ↔
      c1 = c ∧ ∃ day, DayPart day ∧ s = day ++ rest := by
  simp only [RE.opt, mem_run_seq, mem_run_alt, mem_run_eps, mem_run_cls, mem_run_reDash,
    isDayChar_iff]
  constructor
  · rintro ⟨m1, c2, ⟨rfl, d1, rfl, hd1⟩, h⟩
    rcases h with ⟨m2, c3, ⟨rfl, u1, u2, hu1, hu2, rfl⟩, rfl, d2, rfl, hd2⟩ | ⟨rfl, rfl⟩
    · exact ⟨rfl, d1 :: (u1 ++ '-' :: (u2 ++ [d2])),
        ⟨d1, hd1, Or.inr ⟨u1, u2, d2, hu1, hu2, hd2, rfl⟩⟩, by simp⟩
    · exact ⟨rfl, [d1], ⟨d1, hd1, Or.inl rfl⟩, rfl⟩
  · rintro ⟨rfl, day, ⟨d1, hd1, h⟩, rfl⟩
    rcases h with rfl | ⟨u1, u2, d2, hu1, hu2, hd2, rfl⟩
    · exact ⟨rest, c1, ⟨rfl, d1, rfl, hd1⟩, Or.inr ⟨rfl, rfl⟩⟩
    · exact ⟨u1 ++ '-' :: (u2 ++ d2 :: rest), c1, ⟨rfl, d1, by simp, hd1⟩,
        Or.inl ⟨d2 :: rest, c1, ⟨rfl, u1, u2, hu1, hu2, rfl⟩, rfl, d2, rfl, hd2⟩⟩

theorem mem_run_reSchedule (s rest : List Char) (c1 : Caps) :
    (rest, c1) ∈ run reSchedule s [] ↔
      rest = [] ∧ ∃ day w1 t1 h1 m1 w2 w3 t2 h2 m2, DayPart day ∧ w1 ≠ [] ∧ Blank w1 ∧
        ClockText t1 h1 m1 ∧ Blank w2 ∧ Blank w3 ∧ ClockText t2 h2 m2 ∧
        s = day ++ (w1 ++ (t1 ++ (w2 ++ '-' :: (w3 ++ t2)))) ∧
        c1 = [(3, t2), (2, t1), (1, day)] := by
  unfold reSchedule
  rw [mem_run_seq]
  simp only [mem_run_group, mem_run_dayPart]
  simp only [mem_run_seq, mem_run_group, mem_run_plus_cls, mem_run_reClock, mem_run_reDash,
    mem_run_eos]
  constructor
  · rintro ⟨x1, cx1, ⟨c0, ⟨rfl, day, hday, rfl⟩, rfl⟩, x2, cx2, ⟨rfl, w1, rfl, hw1, hb1⟩,
      x3, cx3, ⟨c3, ⟨rfl, t1, h1, m1, ht1, rfl⟩, rfl⟩, x4, cx4, ⟨rfl, w2, w3, hw2, hw3, rfl⟩,
      x5, cx5, ⟨c5, ⟨rfl, t2, h2, m2, ht2, rfl⟩, rfl⟩, rfl, rfl, hx5⟩
    subst hx5
    refine ⟨rfl, day, w1, t1, h1, m1, w2, w3, t2, h2, m2, hday, hw1, hb1, ht1, hw2, hw3, ht2,
      by simp, ?_⟩
    simp
  · rintro ⟨rfl, day, w1, t1, h1, m1, w2, w3, t2, h2, m2, hday, hw1, hb1, ht1, hw2, hw3, ht2,
      rfl, rfl⟩
    refine ⟨w1 ++ (t1 ++ (w2 ++ '-' :: (w3 ++ t2))), [(1, day)],
      ⟨[], ⟨rfl, day, hday, rfl⟩, by simp⟩,
      t1 ++ (w2 ++ '-' :: (w3 ++ t2)), [(1, day)], ⟨rfl, w1, rfl, hw1, hb1⟩,
      w2 ++ '-' :: (w3 ++ t2), [(2, t1), (1, day)],
      ⟨[(1, day)], ⟨rfl, t1, h1, m1, ht1, rfl⟩, by simp⟩,
      t2, [(2, t1), (1, day)], ⟨rfl, w2, w3, hw2, hw3, rfl⟩,
      [], [(3, t2), (2, t1), (1, day)], ⟨[(2, t1), (1, day)], ⟨rfl, t2, h2, m2, ht2, by simp⟩,
        by simp⟩, rfl, rfl, rfl⟩

theorem span_unique (p : Char → Bool) : ∀ (w w1 A A1 : List Char) (x x1 : Char),
    (∀ a ∈ w, p a = true) → (∀ a ∈ w1, p a = true) → p x = false → p x1 = false →
    w ++ x :: A = w1 ++ x1 :: A1 → w = w1 ∧ x = x1 ∧ A = A1 := by
  intro w
  induction w with
  | nil =>
    intro w1 A A1 x x1 _ hw1 hx _ h
    cases w1 with
    | nil => simp at h; exact ⟨rfl, h.1, h.2⟩
    | cons b w1 =>
      simp at h
      have := hw1 b (List.mem_cons_self _ _)
      rw [← h.1, hx] at this
      exact absurd this (by simp)
  | cons a w ih =>
    intro w1 A A1 x x1 hw hw1 hx hx1 h
    cases w1 with
    | nil =>
      simp at h
      have := hw a (List.mem_cons_self _ _)
      rw [h.1, hx1] at this
      exact absurd this (by simp)
    | cons b w1 =>
      simp at h
      obtain ⟨h1, h2, h3⟩ := ih w1 A A1 x x1 (fun c hc => hw c (List.mem_cons_of_mem _ hc))
        (fun c hc => hw1 c (List.mem_cons_of_mem _ hc)) hx hx1 h.2
      exact ⟨by rw [h.1, h1], h2, h3⟩

theorem suffix_unique (p : Char → Bool) (w w1 A A1 : List Char) (x x1 : Char)
    (hw : ∀ a ∈ w, p a = true) (hw1 : ∀ a ∈ w1, p a = true) (hx : p x = false)
    (hx1 : p x1 = false) (h : A ++ x :: w = A1 ++ x1 :: w1) : A = A1 ∧ x = x1 ∧ w = w1 := by
  have h2 : w.reverse ++ x :: A.reverse = w1.reverse ++ x1 :: A1.reverse := by
    have := congrArg List.reverse h
    simpa using this
  obtain ⟨a1, a2, a3⟩ := span_unique p w.reverse w1.reverse A.reverse A1.reverse x x1
    (fun a ha => hw a (List.mem_reverse.mp ha)) (fun a ha => hw1 a (List.mem_reverse.mp ha))
    hx hx1 h2
  exact ⟨List.reverse_injective a3, a2, List.reverse_injective a1⟩

theorem not_space_of_digit (c : Char) (h : c ∈ decimalDigits) : jsIsSpace c = false := by
  have := (mem_decimalDigits_iff c).mp h
  simp only [jsIsSpace, Bool.or_eq_false_iff, Bool.and_eq_false_iff, beq_eq_false_iff_ne,
    decide_eq_false_iff_not]
  omega

theorem clockText_unique {t : List Char} {h m h1 m1 : Nat} (a : ClockText t h m)
    (b : ClockText t h1 m1) : h = h1 ∧ m = m1 := by
  obtain ⟨a1, a2, a3, a4, rfl, -, -, -, -, rfl, -, rfl, -⟩ := a
  obtain ⟨b1, b2, b3, b4, hb, -, -, -, -, rfl, -, rfl, -⟩ := b
  simp at hb
  obtain ⟨rfl, rfl, rfl, rfl⟩ := hb
  exact ⟨rfl, rfl⟩

theorem segmentShape_unique {seg : List Char} {h1 m1 h2 m2 k1 n1 k2 n2 : Nat}
    (a : SegmentShape seg h1 m1 h2 m2) (b : SegmentShape seg k1 n1 k2 n2) :
    h1 = k1 ∧ m1 = n1 ∧ h2 = k2 ∧ m2 = n2 := by
  obtain ⟨day, w1, t1, w2, w3, t2, -, -, -, ht1, hw2, hw3, ht2, rfl⟩ := a
  obtain ⟨day1, v1, s1, v2, v3, s2, -, -, -, hs1, hv2, hv3, hs2, heq⟩ := b
  have ht1c := ht1
  have hs1c := hs1
  have ht2c := ht2
  have hs2c := hs2
  obtain ⟨a1, a2, a3, a4, rfl, -, -, -, ha4, -⟩ := ht1
  obtain ⟨b1, b2, b3, b4, rfl, -, -, -, hb4, -⟩ := hs1
  obtain ⟨c1, c2, c3, c4, rfl, -⟩ := ht2
  obtain ⟨d1, d2, d3, d4, rfl, -⟩ := hs2
  have e1 : (day ++ (w1 ++ ([a1, a2, ':', a3, a4] ++ w2))) ++ '-' :: (w3 ++ [c1, c2, ':', c3, c4])
      = (day1 ++ (v1 ++ ([b1, b2, ':', b3, b4] ++ v2))) ++ '-' ::
        (v3 ++ [d1, d2, ':', d3, d4]) := by
    simpa using heq
  have e2 : ((day ++ (w1 ++ ([a1, a2, ':', a3, a4] ++ w2))) ++ '-' :: w3) ++ [c1, c2, ':', c3, c4]
      = ((day1 ++ (v1 ++ ([b1, b2, ':', b3, b4] ++ v2))) ++ '-' :: v3) ++
        [d1, d2, ':', d3, d4] := by
    simpa using e1
  obtain ⟨e3, e4⟩ := List.append_inj' e2 rfl
  obtain ⟨e5, -, -⟩ := suffix_unique jsIsSpace w3 v3 _ _ '-' '-' hw3 hv3 (by decide) (by decide) e3
  have e6 : (day ++ (w1 ++ [a1, a2, ':', a3])) ++ a4 :: w2
      = (day1 ++ (v1 ++ [b1, b2, ':', b3])) ++ b4 :: v2 := by
    simpa using e5
  obtain ⟨e7, e8, -⟩ := suffix_unique jsIsSpace w2 v2 _ _ a4 b4 hw2 hv2
    (not_space_of_digit _ ha4) (not_space_of_digit _ hb4) e6
  have e9 : (day ++ w1) ++ [a1, a2, ':', a3] = (day1 ++ v1) ++ [b1, b2, ':', b3] := by
    simpa using e7
  obtain ⟨-, e10⟩ := List.append_inj' e9 rfl
  have e11 : [a1, a2, ':', a3, a4] = [b1, b2, ':', b3, b4] := by
    simp at e10
    simp [e10, e8]
  rw [e11] at ht1c
  rw [e4] at ht2c
  obtain ⟨r1, r2⟩ := clockText_unique ht1c hs1c
  obtain ⟨r3, r4⟩ := clockText_unique ht2c hs2c
  exact ⟨r1, r2, r3, r4⟩

theorem toMin_clock {t : List Char} {h m : Nat} (a : ClockText t h m) :
    toMin t = some (h * 60 + m) := by
  obtain ⟨a1, a2, a3, a4, rfl, h1, h2, h3, h4, rfl, -, rfl, -⟩ := a
  have n1 : a1 ≠ ':' := by rintro rfl; exact absurd h1 (by decide)
  have n2 : a2 ≠ ':' := by rintro rfl; exact absurd h2 (by decide)
  have n3 : a3 ≠ ':' := by rintro rfl; exact absurd h3 (by decide)
  have n4 : a4 ≠ ':' := by rintro rfl; exact absurd h4 (by decide)
  simp only [toMin, splitOn, n1, n2, n3, n4, jsNumber, digitValue, if_false, if_true,
    List.map, List.foldl, Option.some.injEq]
  omega

theorem reMatch_reSchedule_none {seg : List Char}
    (h : ¬ ∃ h1 m1 h2 m2, SegmentShape seg h1 m1 h2 m2) : reMatch reSchedule seg = none := by
  unfold reMatch
  cases hr : run reSchedule seg [] with
  | nil => rfl
  | cons x xs =>
    exfalso
    have hx : (x.1, x.2) ∈ run reSchedule seg [] := by rw [hr]; exact List.mem_cons_self _ _
    obtain ⟨-, day, w1, t1, h1, m1, w2, w3, t2, h2, m2, a1, a2, a3, a4, a5, a6, a7, a8, -⟩ :=
      (mem_run_reSchedule seg x.1 x.2).mp hx
    exact h ⟨h1, m1, h2, m2, day, w1, t1, w2, w3, t2, a1, a2, a3, a4, a5, a6, a7, a8⟩

theorem reMatch_reSchedule_some {seg : List Char} {h1 m1 h2 m2 : Nat}
    (h : SegmentShape seg h1 m1 h2 m2) :
    ∃ m, reMatch reSchedule seg = some m ∧ toMin (capture m 2) = some (h1 * 60 + m1) ∧
      toMin (capture m 3) = some (h2 * 60 + m2) := by
  unfold reMatch
  cases hr : run reSchedule seg [] with
  | nil =>
    exfalso
    obtain ⟨day, w1, t1, w2, w3, t2, a1, a2, a3, a4, a5, a6, a7, a8⟩ := h
    have : (([] : List Char), ([(3, t2), (2, t1), (1, day)] : Caps)) ∈ run reSchedule seg [] :=
      (mem_run_reSchedule seg [] _).mpr
        ⟨rfl, day, w1, t1, h1, m1, w2, w3, t2, h2, m2, a1, a2, a3, a4, a5, a6, a7, a8, rfl⟩
    rw [hr] at this
    exact absurd this (List.not_mem_nil _)
  | cons x xs =>
    have hx : (x.1, x.2) ∈ run reSchedule seg [] := by rw [hr]; exact List.mem_cons_self _ _
    obtain ⟨-, day, w1, t1, k1, n1, w2, w3, t2, k2, n2, a1, a2, a3, a4, a5, a6, a7, a8, hc⟩ :=
      (mem_run_reSchedule seg x.1 x.2).mp hx
    have hs : SegmentShape seg k1 n1 k2 n2 := ⟨day, w1, t1, w2, w3, t2, a1, a2, a3, a4, a5, a6, a7, a8⟩
    obtain ⟨rfl, rfl, rfl, rfl⟩ := segmentShape_unique h hs
    refine ⟨x.2, rfl, ?_, ?_⟩
    · rw [hc]; simpa [capture, List.lookup] using toMin_clock a4
    · rw [hc]; simpa [capture, List.lookup] using toMin_clock a7

theorem scheduleLoop_valid (segs : List (List Char)) : ∀ i : Nat,
    (scheduleLoop i segs).valid = true ↔ ∀ seg ∈ segs, SegmentFormat seg := by
  induction segs with
  | nil => intro i; simp [scheduleLoop]
  | cons seg rest ih =>
    intro i
    by_cases hs : ∃ h1 m1 h2 m2, SegmentShape seg h1 m1 h2 m2
    · obtain ⟨h1, m1, h2, m2, hshape⟩ := hs
      obtain ⟨m, hm, hstart, hstop⟩ := reMatch_reSchedule_some hshape
      simp only [scheduleLoop, hm, hstart, hstop, List.forall_mem_cons]
      by_cases hlt : h1 * 60 + m1 ≥ h2 * 60 + m2
      · simp only [hlt, if_true, Bool.false_eq_true, false_iff]
        rintro ⟨⟨k1, n1, k2, n2, hk, hklt⟩, -⟩
        obtain ⟨rfl, rfl, rfl, rfl⟩ := segmentShape_unique hshape hk
        omega
      · simp only [hlt, if_false, ih (i + 1)]
        constructor
        · intro hrest; exact ⟨⟨h1, m1, h2, m2, hshape, by omega⟩, hrest⟩
        · intro hall; exact hall.2
    · simp only [scheduleLoop, reMatch_reSchedule_none hs, List.forall_mem_cons,
        Bool.false_eq_true, false_iff]
      rintro ⟨⟨k1, n1, k2, n2, hk, -⟩, -⟩
      exact hs ⟨k1, n1, k2, n2, hk⟩

theorem trimChars_eq_nil_iff (l : List Char) : trimChars l = [] ↔ Blank l := by
  constructor
  · intro h
    obtain ⟨w1, w2, hl, h1, h2⟩ := trimChars_decomp l
    rw [h] at hl
    intro a ha
    rw [hl] at ha
    simp only [List.append_nil, List.mem_append] at ha
    rcases ha with ha | ha
    · exact h1 a ha
    · exact h2 a ha
  · intro h
    have : l.dropWhile jsIsSpace = [] := List.dropWhile_eq_nil_iff.mpr h
    simp [trimChars, this]

theorem segmentStated_length {seg : List Char} (h : SegmentStated seg) :
    seg.length = 13 ∨ seg.length = 15 := by
  obtain ⟨day, t1, h1, m1, t2, h2, m2, ⟨d1, -, hd⟩, ⟨a1, a2, a3, a4, rfl, -⟩,
    ⟨b1, b2, b3, b4, rfl, -⟩, rfl, -⟩ := h
  rcases hd with rfl | ⟨d2, -, rfl⟩
  · left; simp
  · right; simp

theorem mem_scheduleSegments (str seg : List Char) :
    seg ∈ scheduleSegments str ↔ ∃ raw ∈ splitOn ',' str, trimChars raw = seg ∧ seg ≠ [] := by
  simp only [scheduleSegments, List.mem_filter, List.mem_map, Bool.not_eq_true',
    List.isEmpty_eq_false]
  constructor
  · rintro ⟨⟨raw, h1, h2⟩, h3⟩; exact ⟨raw, h1, h2, h3⟩
  · rintro ⟨raw, h1, h2, h3⟩; exact ⟨⟨raw, h1, h2⟩, h3⟩

theorem validateScheduleChars_valid (str : List Char) :
    (validateScheduleChars str).valid = true ↔ ScheduleFormat str := by
  unfold validateScheduleChars ScheduleFormat
  by_cases hb : Blank str
  · have h1 : trimChars str = [] := (trimChars_eq_nil_iff str).mpr hb
    simp [h1, hb]
  · have h1 : trimChars str ≠ [] := fun h => hb ((trimChars_eq_nil_iff str).mp h)
    have h2 : str ≠ [] := by
      rintro rfl; exact hb (fun a ha => absurd ha (List.not_mem_nil _))
    have h3 : (str.isEmpty || (trimChars str).isEmpty) = false := by
      simp [List.isEmpty_iff, h1, h2]
    simp only [h3, Bool.false_eq_true, if_false, scheduleLoop_valid, mem_scheduleSegments, hb,
      not_false_eq_true, true_and]
    constructor
    · intro h raw hraw hne; exact h _ ⟨raw, hraw, rfl, hne⟩
    · rintro h seg ⟨raw, hraw, rfl, hne⟩; exact h raw hraw hne

theorem scheduleLoop_message (segs : List (List Char)) : ∀ i : Nat,
    (scheduleLoop i segs).valid = false → ∃ msg, (scheduleLoop i segs).message = some msg := by
  induction segs with
  | nil => intro i h; simp [scheduleLoop] at h
  | cons seg rest ih =>
    intro i
    unfold scheduleLoop
    split
    · intro _; exact ⟨_, rfl⟩
    · split
      · split
        · intro _; exact ⟨_, rfl⟩
        · exact ih (i + 1)
      · exact ih (i + 1)

theorem validateSchedule_message (str : String) (h : (validateSchedule str).valid = false) :
    ∃ msg, (validateSchedule str).message = some msg := by
  unfold validateSchedule validateScheduleChars at *
  split
  · exact ⟨_, rfl⟩
  · rename_i hb
    simp only [hb, if_false, Bool.false_eq_true] at h
    exact scheduleLoop_message _ 0 h

theorem handleDoctorSubmit_eq (e : Entropy) (f : DoctorForm) (s : Store) :
    handleDoctorSubmit e f s =
      if isPhoneIntl (jsTrim f.dTelefono) = false then
        .rejected s "Teléfono inválido. Ej: 9999-9999 o +1 202-555-0123"
      else if isEmail (jsTrim f.dCorreo) = false then .rejected s "Correo inválido"
      else if (validateSchedule (jsTrim f.dHorario)).valid = false then
        .rejected s ((validateSchedule (jsTrim f.dHorario)).message.getD "")
      else
        .saved (saveDoctors
          (upsertList Doctor.id f.record f.doctorId (genId "doc" e) (getDoctors s)) s) := by
  unfold handleDoctorSubmit upsertList
  simp only [Bool.not_eq_true', DoctorForm.record]

theorem handlePatientSubmit_eq (parseInt10 : String → Option Int) (e : Entropy)
    (f : PatientForm) (s : Store) :
    handlePatientSubmit parseInt10 e f s =
      if isPhoneIntl (jsTrim f.pTelefono) = false then
        .rejected s "Teléfono inválido. Ej: 9999-9999 o +1 202-555-0123"
      else
        .saved (savePatients
          (upsertList Patient.id (f.record parseInt10 s) f.patientId (genId "pac" e)
            (getPatients s)) s) := by
  unfold handlePatientSubmit upsertList
  simp only [Bool.not_eq_true', PatientForm.record, doctorNameOf]
  cases List.find? (fun d => d.id == f.pMedico) (getDoctors s) <;>
    cases List.findIdx? (fun p => p.id == f.patientId) (getPatients s) <;> rfl

theorem handleHistSubmit_eq (e : Entropy) (f : HistForm) (s : Store) :
    handleHistSubmit e f s =
      if f.hPaciente = "" ∨ f.hDoctor = "" then .rejected s "Seleccione paciente y doctor"
      else if f.hFecha = "" then .rejected s "Seleccione fecha"
      else
        .saved (saveHistorial
          (upsertList Historial.id (f.record s) f.hId (genId "his" e) (getHistorial s)) s) := by
  unfold handleHistSubmit upsertList
  simp only [HistForm.record, doctorNameOf, patientNameOf, Bool.or_eq_true, decide_eq_true_eq]
  cases List.find? (fun d => d.id == f.hDoctor) (getDoctors s) <;>
    cases List.find? (fun p => p.id == f.hPaciente) (getPatients s) <;>
    cases List.findIdx? (fun h => h.id == f.hId) (getHistorial s) <;> rfl

theorem handleCitaSubmit_create (e : Entropy) (f : CitaForm) (s : Store)
    (hid : f.citaId = "") (hp : f.cPaciente ≠ "") (hd : f.cDoctor ≠ "") (hf : f.cFecha ≠ "") :
    handleCitaSubmit e f s =
      if ∃ c ∈ getCitas s, c.occupies f.cDoctor f.cFecha then
        .rejected s "Ya existe una cita para ese doctor en la misma fecha y hora"
      else .saved (saveCitas (getCitas s ++ [f.record s (genId "cit" e)]) s) := by
  have hany : (getCitas s).any (fun c =>
      c.doctorId == f.cDoctor && c.fecha == f.cFecha && c.estado != "Cancelada") = true ↔
      ∃ c ∈ getCitas s, c.occupies f.cDoctor f.cFecha := by
    simp [Cita.occupies, List.any_eq_true, and_assoc]
  unfold handleCitaSubmit
  simp only [hid, hp, hd, hf, decide_False, Bool.or_self, Bool.false_eq_true, if_false,
    ne_eq, not_true_eq_false]
  by_cases hc : ∃ c ∈ getCitas s, c.occupies f.cDoctor f.cFecha
  · rw [if_pos (hany.mpr hc), if_pos hc]
  · rw [if_neg (fun h => hc (hany.mp h)), if_neg hc]
    simp only [CitaForm.record, patientNameOf, doctorNameOf]
    cases List.find? (fun p => p.id == f.cPaciente) (getPatients s) <;>
      cases List.find? (fun d => d.id == f.cDoctor) (getDoctors s) <;> rfl

theorem handleCitaSubmit_eq (e : Entropy) (f : CitaForm) (s : Store) :
    handleCitaSubmit e f s =
      if f.cPaciente = "" ∨ f.cDoctor = "" then .rejected s "Seleccione paciente y doctor"
      else if f.cFecha = "" then .rejected s "Seleccione fecha"
      else if f.citaId = "" ∧ ∃ c ∈ getCitas s, c.occupies f.cDoctor f.cFecha then
        .rejected s "Ya existe una cita para ese doctor en la misma fecha y hora"
      else
        .saved (saveCitas
          (upsertList Cita.id (f.record s) f.citaId (genId "cit" e) (getCitas s)) s) := by
  by_cases hp : f.cPaciente = "" ∨ f.cDoctor = ""
  · rw [if_pos hp]
    unfold handleCitaSubmit
    simp only [Bool.or_eq_true, decide_eq_true_eq, hp, if_true]
  · rw [if_neg hp]
    by_cases hf : f.cFecha = ""
    · rw [if_pos hf]
      unfold handleCitaSubmit
      simp only [Bool.or_eq_true, decide_eq_true_eq, hp, if_false, hf, if_true]
    · rw [if_neg hf]
      push_neg at hp
      by_cases hid : f.citaId = ""
      · rw [handleCitaSubmit_create e f s hid hp.1 hp.2 hf]
        simp only [hid, true_and, upsertList, ne_eq, not_true_eq_false, if_false]
      · have hno : ¬ (f.citaId = "" ∧ ∃ c ∈ getCitas s, c.occupies f.cDoctor f.cFecha) :=
          fun h => hid h.1
        rw [if_neg hno]
        unfold handleCitaSubmit upsertList
        simp only [Bool.or_eq_true, decide_eq_true_eq, hp.1, hp.2, or_self, if_false, hf, ne_eq,
          hid, not_false_eq_true, if_true, CitaForm.record, doctorNameOf, patientNameOf]
        cases List.find? (fun d => d.id == f.cDoctor) (getDoctors s) <;>
          cases List.find? (fun p => p.id == f.cPaciente) (getPatients s) <;>
          cases List.findIdx? (fun c => c.id == f.citaId) (getCitas s) <;> rfl

theorem upsertList_new {α : Type} (getId : α → String) (mk : String → α) (fresh : String)
    (l : List α) : upsertList getId mk "" fresh l = l ++ [mk fresh] := by
  simp [upsertList]

theorem upsertList_found {α : Type} (getId : α → String) (mk : String → α) (id fresh : String)
    (l : List α) (hid : id ≠ "") (h : ∃ x ∈ l, getId x = id) :
    ∃ i, l.findIdx? (fun x => getId x == id) = some i ∧ i < l.length ∧
      upsertList getId mk id fresh l = l.set i (mk id) ∧
      mk id ∈ upsertList getId mk id fresh l := by
  obtain ⟨x, hx, hxid⟩ := h
  cases hf : l.findIdx? (fun x => getId x == id) with
  | none =>
    have := List.findIdx?_eq_none_iff.mp hf x hx
    simp [hxid] at this
  | some i =>
    obtain ⟨hlt, -, -⟩ := List.findIdx?_eq_some_iff_getElem.mp hf
    have heq : upsertList getId mk id fresh l = l.set i (mk id) := by
      simp [upsertList, hid, hf]
    exact ⟨i, rfl, hlt, heq, by rw [heq]; exact List.mem_set l i hlt (mk id)⟩

theorem upsertList_missing {α : Type} (getId : α → String) (mk : String → α) (id fresh : String)
    (l : List α) (hid : id ≠ "") (h : ∀ x ∈ l, getId x ≠ id) :
    upsertList getId mk id fresh l = l := by
  have hf : l.findIdx? (fun x => getId x == id) = none := by
    rw [List.findIdx?_eq_none_iff]
    intro x hx
    simpa using h x hx
  simp [upsertList, hid, hf]

theorem upsertOutcome_upsertList {α : Type} (getId : α → String) (mk : String → α)
    (id fresh : String) (l : List α) :
    UpsertOutcome getId mk id fresh l (upsertList getId mk id fresh l) := by
  refine ⟨?_, ?_, ?_⟩
  · rintro rfl; exact upsertList_new getId mk fresh l
  · intro hid h
    obtain ⟨i, h1, -, h3, h4⟩ := upsertList_found getId mk id fresh l hid h
    exact ⟨h4, i, h1, h3⟩
  · intro hid h; exact upsertList_missing getId mk id fresh l hid h

theorem readLS_some {α : Type} (l d : α) : readLS (some l) d = l := rfl

theorem seedDefaults_eq (e : Nat → Entropy) (s : Store) :
    seedDefaults e s =
      { users := if readLS s.users [] = [] then some (seedUserList e) else s.users,
        session := s.session, patients := s.patients,
        doctors := if readLS s.doctors [] = [] then some (seedDoctorList e) else s.doctors,
        citas := s.citas, historial := s.historial } := by
  by_cases hu : readLS s.users [] = [] <;> by_cases hd : readLS s.doctors [] = [] <;>
    simp [seedDefaults, hu, hd, seedUserList, seedDoctorList, List.isEmpty_iff]

theorem upsertList_updateInPlace {α : Type} (getId : α → String) (mk : String → α)
    (id fresh : String) (l : List α) (hid : id ≠ "") (hmk : getId (mk id) = id) :
    UpdateInPlace getId (mk id) id l (upsertList getId mk id fresh l) := by
  refine ⟨hmk, ?_, ?_, ?_⟩
  · by_cases h : ∃ x ∈ l, getId x = id
    · obtain ⟨i, -, -, h3, -⟩ := upsertList_found getId mk id fresh l hid h
      rw [h3, List.length_set]
    · push_neg at h
      rw [upsertList_missing getId mk id fresh l hid h]
  · intro h; exact upsertList_missing getId mk id fresh l hid h
  · intro h
    obtain ⟨i, h1, h2, h3, -⟩ := upsertList_found getId mk id fresh l hid h
    obtain ⟨hlt, hp, hfirst⟩ := List.findIdx?_eq_some_iff_getElem.mp h1
    refine ⟨i, ⟨l[i], ?_, by simpa using hp⟩, ?_, ?_, ?_⟩
    · exact List.getElem?_eq_getElem hlt
    · intro j x hj hx
      have hjl : j < l.length := Nat.lt_trans hj hlt
      have hx2 : l[j] = x := by
        rw [List.getElem?_eq_getElem hjl] at hx
        exact Option.some.inj hx
      have := hfirst j hj
      rw [hx2] at this
      simpa using this
    · rw [h3]; exact List.getElem?_set_self hlt
    · intro j hj
      rw [h3]; exact List.getElem?_set_ne (Ne.symm hj)

theorem nameResolved_find {α : Type} (getId getName : α → String) (l : List α) (id : String) :
    NameResolved getId getName l id
      (((l.find? (fun x => getId x == id)).map getName).getD "") := by
  cases h : l.find? (fun x => getId x == id) with
  | none =>
    right
    refine ⟨?_, rfl⟩
    intro y hy
    have := List.find?_eq_none.mp h y hy
    simpa using this
  | some x =>
    left
    obtain ⟨hx, pre, post, hl, hpre⟩ := List.find?_eq_some.mp h
    refine ⟨pre, x, post, hl, by simpa using hx, ?_, rfl⟩
    intro y hy
    simpa using hpre y hy

theorem scheduleLoop_invalid (segs : List (List Char)) : ∀ i : Nat,
    (scheduleLoop i segs).valid = false →
    ∃ k seg, segs[k]? = some seg ∧ ¬ SegmentFormat seg ∧
      (∀ (j : Nat) (x : List Char), j < k → segs[j]? = some x → SegmentFormat x) ∧
      ∃ msg, (scheduleLoop i segs).message = some msg ∧ FailureMessage seg (i + k + 1) msg := by
  induction segs with
  | nil => intro i h; simp [scheduleLoop] at h
  | cons seg rest ih =>
    intro i hv
    by_cases hs : ∃ h1 m1 h2 m2, SegmentShape seg h1 m1 h2 m2
    · obtain ⟨h1, m1, h2, m2, hshape⟩ := hs
      obtain ⟨m, hm, hstart, hstop⟩ := reMatch_reSchedule_some hshape
      by_cases hlt : h1 * 60 + m1 ≥ h2 * 60 + m2
      · refine ⟨0, seg, by simp, ?_, ?_, ?_⟩
        · rintro ⟨k1, n1, k2, n2, hk, hklt⟩
          obtain ⟨rfl, rfl, rfl, rfl⟩ := segmentShape_unique hshape hk
          omega
        · intro j x hj; exact absurd hj (Nat.not_lt_zero _)
        · refine ⟨rangeMessage (i + 0 + 1), ?_, Or.inr ⟨⟨h1, m1, h2, m2, hshape, by omega⟩, rfl⟩⟩
          simp only [scheduleLoop, hm, hstart, hstop, hlt, if_true, rangeMessage, Nat.add_zero]
      · have hgood : SegmentFormat seg := ⟨h1, m1, h2, m2, hshape, by omega⟩
        have hstep : scheduleLoop i (seg :: rest) = scheduleLoop (i + 1) rest := by
          simp only [scheduleLoop, hm, hstart, hstop, hlt, if_false]
        rw [hstep] at hv ⊢
        obtain ⟨k, sg, hk, hbad, hfirst, msg, hmsg, hfail⟩ := ih (i + 1) hv
        refine ⟨k + 1, sg, by simpa using hk, hbad, ?_, msg, hmsg, ?_⟩
        · intro j x hj hx
          cases j with
          | zero =>
            have : seg = x := by simpa using hx
            rw [← this]; exact hgood
          | succ j => exact hfirst j x (by omega) (by simpa using hx)
        · have : i + (k + 1) + 1 = i + 1 + k + 1 := by omega
          rw [this]; exact hfail
    · refine ⟨0, seg, by simp, ?_, ?_, ?_⟩
      · rintro ⟨k1, n1, k2, n2, hk, -⟩; exact hs ⟨k1, n1, k2, n2, hk⟩
      · intro j x hj; exact absurd hj (Nat.not_lt_zero _)
      · refine ⟨formatMessage (i + 0 + 1), ?_, Or.inl ⟨hs, rfl⟩⟩
        simp only [scheduleLoop, reMatch_reSchedule_none hs, formatMessage, Nat.add_zero]

theorem firstFailureAt_unique {segs : List (List Char)} {n m : Nat}
    (a : FirstFailureAt segs n) (b : FirstFailureAt segs m) : n = m := by
  obtain ⟨a1, ⟨sa, ha, hna⟩, a3⟩ := a
  obtain ⟨b1, ⟨sb, hb, hnb⟩, b3⟩ := b
  by_contra hne
  rcases Nat.lt_or_gt_of_ne hne with h | h
  · exact hna (b3 (n - 1) sa (by omega) ha)
  · exact hnb (a3 (m - 1) sb (by omega) hb)

theorem segmentFormat_of_loop {seg : List Char} (h : (scheduleLoop 0 [seg]).valid = true) :
    SegmentFormat seg :=
  (scheduleLoop_valid [seg] 0).mp h seg (List.mem_singleton.mpr rfl)

theorem not_segmentFormat_of_loop {seg : List Char} (h : (scheduleLoop 0 [seg]).valid = false) :
    ¬ SegmentFormat seg := by
  intro hs
  have := (scheduleLoop_valid [seg] 0).mpr (fun x hx => by rw [List.mem_singleton.mp hx]; exact hs)
  rw [h] at this
  exact absurd this (by decide)

theorem handleDoctorSubmit_saved (e : Entropy) (f : DoctorForm) (s : Store) (h : f.passes) :
    handleDoctorSubmit e f s =
      .saved (saveDoctors
        (upsertList Doctor.id f.record f.doctorId (genId "doc" e) (getDoctors s)) s) := by
  obtain ⟨h1, h2, h3⟩ := h
  rw [handleDoctorSubmit_eq]
  simp [h1, h2, h3]

theorem handlePatientSubmit_saved (parseInt10 : String → Option Int) (e : Entropy)
    (f : PatientForm) (s : Store) (h : f.passes) :
    handlePatientSubmit parseInt10 e f s =
      .saved (savePatients
        (upsertList Patient.id (f.record parseInt10 s) f.patientId (genId "pac" e)
          (getPatients s)) s) := by
  rw [handlePatientSubmit_eq]
  unfold PatientForm.passes at h
  simp [h]

theorem handleCitaSubmit_saved (e : Entropy) (f : CitaForm) (s : Store) (h : f.passes s) :
    handleCitaSubmit e f s =
      .saved (saveCitas
        (upsertList Cita.id (f.record s) f.citaId (genId "cit" e) (getCitas s)) s) := by
  obtain ⟨h1, h2, h3, h4⟩ := h
  rw [handleCitaSubmit_eq]
  rw [if_neg (by rintro (h | h); exact h1 h; exact h2 h), if_neg h3, if_neg h4]

theorem handleHistSubmit_saved (e : Entropy) (f : HistForm) (s : Store) (h : f.passes) :
    handleHistSubmit e f s =
      .saved (saveHistorial
        (upsertList Historial.id (f.record s) f.hId (genId "his" e) (getHistorial s)) s) := by
  obtain ⟨h1, h2, h3⟩ := h
  rw [handleHistSubmit_eq]
  rw [if_neg (by rintro (h | h); exact h1 h; exact h2 h), if_neg h3]

theorem handleCitaSubmit_isSaved (e : Entropy) (f : CitaForm) (s : Store) :
    (handleCitaSubmit e f s).isSaved = true ↔ f.passes s := by
  unfold CitaForm.passes
  rw [handleCitaSubmit_eq]
  split_ifs with h1 h2 h3
  · simp only [Outcome.isSaved, Bool.false_eq_true, false_iff]
    rintro ⟨a, b, -⟩
    rcases h1 with h1 | h1
    · exact a h1
    · exact b h1
  · simp only [Outcome.isSaved, Bool.false_eq_true, false_iff]
    rintro ⟨-, -, c, -⟩; exact c h2
  · simp only [Outcome.isSaved, Bool.false_eq_true, false_iff]
    rintro ⟨-, -, -, d⟩; exact d h3
  · simp only [Outcome.isSaved, true_iff]
    push_neg at h1
    exact ⟨h1.1, h1.2, h2, h3⟩

theorem handleHistSubmit_isSaved (e : Entropy) (f : HistForm) (s : Store) :
    (handleHistSubmit e f s).isSaved = true ↔ f.passes := by
  unfold HistForm.passes
  rw [handleHistSubmit_eq]
  split_ifs with h1 h2
  · simp only [Outcome.isSaved, Bool.false_eq_true, false_iff]
    rintro ⟨a, b, -⟩
    rcases h1 with h1 | h1
    · exact a h1
    · exact b h1
  · simp only [Outcome.isSaved, Bool.false_eq_true, false_iff]
    rintro ⟨-, -, c⟩; exact c h2
  · simp only [Outcome.isSaved, true_iff]
    push_neg at h1
    exact ⟨h1.1, h1.2, h2⟩

theorem handleDoctorSubmit_isSaved (e : Entropy) (f : DoctorForm) (s : Store) :
    (handleDoctorSubmit e f s).isSaved = true ↔ f.passes := by
  unfold DoctorForm.passes
  rw [handleDoctorSubmit_eq]
  cases isPhoneIntl (jsTrim f.dTelefono) <;> cases isEmail (jsTrim f.dCorreo) <;>
    cases (validateSchedule (jsTrim f.dHorario)).valid <;> simp [Outcome.isSaved]

theorem handlePatientSubmit_isSaved (parseInt10 : String → Option Int) (e : Entropy)
    (f : PatientForm) (s : Store) :
    (handlePatientSubmit parseInt10 e f s).isSaved = true ↔ f.passes := by
  unfold PatientForm.passes
  rw [handlePatientSubmit_eq]
  cases isPhoneIntl (jsTrim f.pTelefono) <;> simp [Outcome.isSaved]

/-! ## The claims -/

/-- C1. A submission of the appointment form without an id and with a patient, a doctor and a
`fecha` is rejected exactly when a stored appointment has the same doctor, the same `fecha` and
an `estado` other than `Cancelada`. A rejection leaves the storage as it was; an acceptance
appends to the stored list one record: the fresh id and the submitted fields, `motivo` trimmed.
With a single stored appointment that differs in the `fecha` or in the doctor, the submission
is accepted. -/
theorem handleCitaSubmit_new_conflict (e : Entropy) (f : CitaForm) (s : Store)
    (hid : f.citaId = "") (hp : f.cPaciente ≠ "") (hd : f.cDoctor ≠ "") (hf : f.cFecha ≠ "") :
    ((handleCitaSubmit e f s).isSaved = false ↔
      ∃ c ∈ getCitas s, c.doctorId = f.cDoctor ∧ c.fecha = f.cFecha ∧ c.estado ≠ "Cancelada") ∧
    ((handleCitaSubmit e f s).isSaved = false → (handleCitaSubmit e f s).store = s) ∧
    ((handleCitaSubmit e f s).isSaved = true →
      getCitas (handleCitaSubmit e f s).store =
        getCitas s ++ [f.record s (genId "cit" e)]) ∧
    (∀ c : Cita, getCitas s = [c] →
      ((c.doctorId = f.cDoctor ∧ c.fecha ≠ f.cFecha) ∨
        (c.doctorId ≠ f.cDoctor ∧ c.fecha = f.cFecha)) →
      (handleCitaSubmit e f s).isSaved = true) := by
  rw [handleCitaSubmit_create e f s hid hp hd hf]
  by_cases hc : ∃ c ∈ getCitas s, c.occupies f.cDoctor f.cFecha
  · have hc1 := hc
    simp only [Cita.occupies] at hc1
    simp only [if_pos hc, Outcome.isSaved, Outcome.store, true_iff, hc1, true_and,
      Bool.false_eq_true, false_implies, forall_true_left]
    intro c hl h
    obtain ⟨c1, hmem, h1, h2, -⟩ := hc1
    rw [hl] at hmem
    have : c1 = c := by simpa using hmem
    subst this
    rcases h with ⟨-, h⟩ | ⟨h, -⟩
    · exact absurd h2 h
    · exact absurd h1 h
  · have hc1 := hc
    simp only [Cita.occupies] at hc1
    simp only [if_neg hc, Outcome.isSaved, Outcome.store, hc1, Bool.true_eq_false, false_iff,
      not_false_eq_true, false_implies, true_and, forall_true_left, implies_true, and_true]
    rfl

/-- C1, at a concrete input: the first appointment created in an empty storage. -/
theorem handleCitaSubmit_new_conflict_witness :
    (handleCitaSubmit sampleEntropy1 sampleCitaForm Store.empty).isSaved = true ∧
    getCitas (handleCitaSubmit sampleEntropy1 sampleCitaForm Store.empty).store =
      getCitas Store.empty ++
        [sampleCitaForm.record Store.empty (genId "cit" sampleEntropy1)] :=
  ⟨by decide,
   (handleCitaSubmit_new_conflict sampleEntropy1 sampleCitaForm Store.empty rfl (by decide)
      (by decide) (by decide)).2.2.1 (by decide)⟩

/-- C2. The code breaks the invariant: `doubleBooked` is reached by two creations and one
update of an existing appointment, and it holds two appointments that are not cancelled for
doctor `doc_1` at `2025-01-10T09:00`, because the update branch of `handleCitaSubmit` runs no
overlap check. -/
theorem update_breaks_noDoubleBooking :
    CitasReachable doubleBooked ∧
    getCitas doubleBooked =
      [ { id := "cit_k3j9x21234", pacienteId := "pac_1", pacienteNombre := "",
          doctorId := "doc_1", doctorNombre := "", fecha := "2025-01-10T09:00",
          motivo := "Control", estado := "Programada" },
        { id := "cit_z81mfa5678", pacienteId := "pac_2", pacienteNombre := "",
          doctorId := "doc_1", doctorNombre := "", fecha := "2025-01-10T09:00",
          motivo := "Control", estado := "Programada" } ] ∧
    ¬ NoDoubleBooking (getCitas doubleBooked) := by
  refine ⟨?_, by decide, ?_⟩
  · unfold doubleBooked
    exact CitasReachable.submit _ _ _ (CitasReachable.submit _ _ _
      (CitasReachable.submit _ _ _ (CitasReachable.init Store.empty rfl)))
  · intro h
    have h1 := h "doc_1" "2025-01-10T09:00"
    revert h1
    decide

/-- C3. `isPhoneIntl` accepts a string exactly when, with white space, parentheses, dots and
dashes removed, it is `+` followed by 8 to 15 decimal digits, or 7 to 15 decimal digits. A blank
string is rejected, `"+1 202-555-0123"` is accepted and `"123"` is rejected. -/
theorem isPhoneIntl_spec :
    (∀ s : String, isPhoneIntl s = true ↔ PhoneFormat s.data) ∧
    (∀ s : String, Blank s.data → isPhoneIntl s = false) ∧
    isPhoneIntl "+1 202-555-0123" = true ∧ isPhoneIntl "123" = false := by
  refine ⟨fun s => isPhoneIntlChars_iff s.data, ?_, by decide, by decide⟩
  intro s hb
  have h1 : trimChars s.data = [] := (trimChars_eq_nil_iff _).mpr hb
  simp [isPhoneIntl, isPhoneIntlChars, h1]

/-- C4 as stated fails. `"L-V 09:00-17:00,"` is valid for the code although its last
comma-separated segment is empty, and `"L-V  09:00 - 17:00"` is valid for the code although it
is not exactly `DAY[-DAY] HH:MM-HH:MM`. -/
theorem validateSchedule_stated_fails :
    ((validateSchedule "L-V 09:00-17:00,").valid = true ∧
      ¬ ScheduleStated "L-V 09:00-17:00,".data) ∧
    ((validateSchedule "L-V  09:00 - 17:00").valid = true ∧
      ¬ ScheduleStated "L-V  09:00 - 17:00".data) := by
  refine ⟨⟨by decide, ?_⟩, ⟨by decide, ?_⟩⟩
  · rintro ⟨-, h⟩
    have := segmentStated_length (h [] (by decide))
    revert this
    decide
  · rintro ⟨-, h⟩
    have := segmentStated_length (h "L-V  09:00 - 17:00".data (by decide))
    revert this
    decide

/-- C4, amended. `validateSchedule` answers valid exactly when the string is not blank and every
comma-separated segment that is not empty once trimmed has the shape day part, white space,
`HH:MM`, dash, `HH:MM`, where white space may surround each dash, with the start strictly before
the end in minutes since midnight. The four examples of the claim come out as it says. -/
theorem validateSchedule_spec :
    (∀ s : String, (validateSchedule s).valid = true ↔ ScheduleFormat s.data) ∧
    (validateSchedule "L-V 09:00-17:00").valid = true ∧
    (validateSchedule "S 08:00-12:00, D 09:00-13:00").valid = true ∧
    (validateSchedule "L-V 17:00-09:00").valid = false ∧
    (validateSchedule "").valid = false := by
  refine ⟨fun s => validateScheduleChars_valid s.data, by decide, by decide, by decide, by decide⟩

/-- C5 as stated fails. `"a@b_c.co"` has a non-empty local part and a non-empty domain free of
white space and `@`, and a final label of two letters, yet `isEmail` rejects it. -/
theorem isEmail_stated_fails :
    isEmail "a@b_c.co" = false ∧ EmailFormatStated "a@b_c.co".data := by
  refine ⟨by decide, ['a'], ['b', '_', 'c'], ['c', 'o'], rfl, by simp, ?_, by simp, ?_, by simp,
    by simp, ?_⟩
  · decide
  · decide
  · decide

/-- C5, amended. `isEmail` accepts a string exactly when it is `localpart@domain.tld` with a
non-empty local part free of white space and `@`, a non-empty domain made of letters, digits, dots
and hyphens, and a final label of 2 to 24 letters. `"a@b.co"` is accepted and `"a@b"` is
rejected. -/
theorem isEmail_spec :
    (∀ s : String, isEmail s = true ↔ EmailFormat s.data) ∧
    isEmail "a@b.co" = true ∧ isEmail "a@b" = false := by
  exact ⟨fun s => isEmailChars_iff s.data, by decide, by decide⟩

/-- C6. `handleDoctorSubmit` reaches its save exactly when the trimmed phone, e-mail and schedule
pass `isPhoneIntl`, `isEmail` and `validateSchedule`, and then it writes the doctors collection:
the storage returned is the old one with the doctors set to the upserted list. When a check
fails the handler returns the storage it was given, with the message of the first failing check
in the order phone, e-mail, schedule, the last being the message `validateSchedule` returned.
`handlePatientSubmit` returns the storage it was given when the trimmed phone fails
`isPhoneIntl`. -/
theorem handleDoctorSubmit_validation (parseInt10 : String → Option Int) (e : Entropy)
    (f : DoctorForm) (pf : PatientForm) (s : Store) :
    ((handleDoctorSubmit e f s).isSaved = true ↔
      (isPhoneIntl (jsTrim f.dTelefono) = true ∧ isEmail (jsTrim f.dCorreo) = true ∧
        (validateSchedule (jsTrim f.dHorario)).valid = true)) ∧
    ((isPhoneIntl (jsTrim f.dTelefono) = true ∧ isEmail (jsTrim f.dCorreo) = true ∧
        (validateSchedule (jsTrim f.dHorario)).valid = true) →
      handleDoctorSubmit e f s =
        .saved (saveDoctors
          (upsertList Doctor.id f.record f.doctorId (genId "doc" e) (getDoctors s)) s) ∧
      (handleDoctorSubmit e f s).store.doctors =
        some (upsertList Doctor.id f.record f.doctorId (genId "doc" e) (getDoctors s))) ∧
    ((handleDoctorSubmit e f s).isSaved = false → (handleDoctorSubmit e f s).store = s) ∧
    (isPhoneIntl (jsTrim f.dTelefono) = false →
      handleDoctorSubmit e f s =
        .rejected s "Teléfono inválido. Ej: 9999-9999 o +1 202-555-0123") ∧
    (isPhoneIntl (jsTrim f.dTelefono) = true → isEmail (jsTrim f.dCorreo) = false →
      handleDoctorSubmit e f s = .rejected s "Correo inválido") ∧
    (isPhoneIntl (jsTrim f.dTelefono) = true → isEmail (jsTrim f.dCorreo) = true →
      (validateSchedule (jsTrim f.dHorario)).valid = false →
      ∃ msg, (validateSchedule (jsTrim f.dHorario)).message = some msg ∧
        handleDoctorSubmit e f s = .rejected s msg) ∧
    (isPhoneIntl (jsTrim pf.pTelefono) = false →
      handlePatientSubmit parseInt10 e pf s =
        .rejected s "Teléfono inválido. Ej: 9999-9999 o +1 202-555-0123" ∧
      (handlePatientSubmit parseInt10 e pf s).store = s) := by
  refine ⟨handleDoctorSubmit_isSaved e f s, ?_, ?_, ?_, ?_, ?_, ?_⟩
  · intro h
    rw [handleDoctorSubmit_saved e f s h]
    exact ⟨rfl, rfl⟩
  · rw [handleDoctorSubmit_eq]
    cases isPhoneIntl (jsTrim f.dTelefono) <;> cases isEmail (jsTrim f.dCorreo) <;>
      cases (validateSchedule (jsTrim f.dHorario)).valid <;>
      simp [Outcome.isSaved, Outcome.store]
  · intro h; rw [handleDoctorSubmit_eq]; simp [h]
  · intro h1 h2; rw [handleDoctorSubmit_eq]; simp [h1, h2]
  · intro h1 h2 h3
    obtain ⟨msg, hmsg⟩ := validateSchedule_message _ h3
    refine ⟨msg, hmsg, ?_⟩
    rw [handleDoctorSubmit_eq]; simp [h1, h2, h3, hmsg]
  · intro h; rw [handlePatientSubmit_eq]; simp [h, Outcome.store]

/-- C6, at concrete inputs: a valid new doctor is written to the empty storage, and the same
form with a bad e-mail is rejected with the e-mail message. -/
theorem handleDoctorSubmit_validation_witness :
    handleDoctorSubmit sampleEntropy1 sampleDoctorNew Store.empty =
      .saved (saveDoctors
        (upsertList Doctor.id sampleDoctorNew.record sampleDoctorNew.doctorId
          (genId "doc" sampleEntropy1) (getDoctors Store.empty)) Store.empty) ∧
    (handleDoctorSubmit sampleEntropy1 sampleDoctorNew Store.empty).store.doctors =
      some [{ id := "doc_k3j9x21234", nombre := "Dra. Ana", especialidad := "Cardiología",
              telefono := "9999-9999", correo := "ana@clinic.com",
              horario := "L-V 09:00-17:00" }] ∧
    handleDoctorSubmit sampleEntropy1 { sampleDoctorNew with dCorreo := "ana@clinic" }
        Store.empty = .rejected Store.empty "Correo inválido" :=
  ⟨((handleDoctorSubmit_validation (fun _ => none) sampleEntropy1 sampleDoctorNew
      (samplePatientForm "") Store.empty).2.1 ⟨by decide, by decide, by decide⟩).1,
   by decide,
   (handleDoctorSubmit_validation (fun _ => none) sampleEntropy1
      { sampleDoctorNew with dCorreo := "ana@clinic" } (samplePatientForm "")
      Store.empty).2.2.2.2.1 (by decide) (by decide)⟩

/-- C7 as stated fails. With one stored user `admin`/`admin`, `login` stores the snapshot without
the password, but the record it returns is the stored user, whose properties include
`password` and differ from those of the snapshot. -/
theorem login_returns_password :
    (login "admin" "admin" sampleUserStore).1 =
      .success { id := "usr_a1b2c31234", nombre := "Admin", usuario := "admin",
                 password := "admin", rol := "Administrador" } ∧
    (login "admin" "admin" sampleUserStore).2.session =
      some { id := "usr_a1b2c31234", usuario := "admin", nombre := "Admin",
             rol := "Administrador" } ∧
    ("password", "admin") ∈
      User.props { id := "usr_a1b2c31234", nombre := "Admin", usuario := "admin",
                   password := "admin", rol := "Administrador" } ∧
    User.props { id := "usr_a1b2c31234", nombre := "Admin", usuario := "admin",
                 password := "admin", rol := "Administrador" } ≠
      Session.props { id := "usr_a1b2c31234", usuario := "admin", nombre := "Admin",
                      rol := "Administrador" } := by
  refine ⟨by decide, by decide, by decide, by decide⟩

/-- C7, amended. When some stored user has the given `usuario` and `password`, `login` succeeds
on the first such user `u`: it returns the stored record of `u`, password included, and changes
the storage only by setting the session to the snapshot made of exactly the `id`, `usuario`,
`nombre` and `rol` of `u`. -/
theorem login_success (usuario password : String) (s : Store)
    (h : ∃ u ∈ readLS s.users [], u.usuario = usuario ∧ u.password = password) :
    ∃ u, (readLS s.users []).find? (fun u => u.usuario == usuario && u.password == password)
        = some u ∧
      u ∈ readLS s.users [] ∧ u.usuario = usuario ∧ u.password = password ∧
      (login usuario password s).1 = .success u ∧
      (login usuario password s).2 =
        { s with session := some { id := u.id, usuario := u.usuario, nombre := u.nombre,
                                   rol := u.rol } } ∧
      (∀ x : Session, getSession (login usuario password s).2 = some x →
        x.props = [("id", u.id), ("usuario", u.usuario), ("nombre", u.nombre), ("rol", u.rol)]) ∧
      ("password", u.password) ∈ u.props := by
  obtain ⟨v, hv, hv1, hv2⟩ := h
  cases hf : (readLS s.users []).find? (fun u => u.usuario == usuario && u.password == password)
    with
  | none =>
    have := List.find?_eq_none.mp hf v hv
    simp [hv1, hv2] at this
  | some u =>
    have hp := List.find?_some hf
    have hm := List.mem_of_find?_eq_some hf
    simp only [Bool.and_eq_true, beq_iff_eq] at hp
    refine ⟨u, rfl, hm, hp.1, hp.2, ?_, ?_, ?_, ?_⟩
    · simp [login, hf]
    · simp [login, hf, setSession]
    · intro x hx
      simp only [login, hf, setSession, getSession, Option.some.injEq] at hx
      rw [← hx]; rfl
    · simp [User.props]

/-- C7, amended, at a concrete input: the storage with the single user `admin`. -/
theorem login_success_witness :
    ∃ u, (readLS sampleUserStore.users []).find?
          (fun u => u.usuario == "admin" && u.password == "admin") = some u ∧
      u ∈ readLS sampleUserStore.users [] ∧ u.usuario = "admin" ∧ u.password = "admin" ∧
      (login "admin" "admin" sampleUserStore).1 = .success u ∧
      (login "admin" "admin" sampleUserStore).2 =
        { sampleUserStore with session := some { id := u.id, usuario := u.usuario,
                                                 nombre := u.nombre, rol := u.rol } } ∧
      (∀ x : Session, getSession (login "admin" "admin" sampleUserStore).2 = some x →
        x.props = [("id", u.id), ("usuario", u.usuario), ("nombre", u.nombre), ("rol", u.rol)]) ∧
      ("password", u.password) ∈ u.props :=
  login_success "admin" "admin" sampleUserStore
    ⟨{ id := "usr_a1b2c31234", nombre := "Admin", usuario := "admin", password := "admin",
       rol := "Administrador" }, by decide, rfl, rfl⟩

/-- C8. `login` succeeds exactly when some stored user has `usuario` and `password` equal to
the arguments as strings; otherwise it returns the failure result and the storage, session
included, is the one it was given. -/
theorem login_iff (usuario password : String) (s : Store) :
    ((∃ u, (login usuario password s).1 = .success u) ↔
      ∃ u ∈ readLS s.users [], u.usuario = usuario ∧ u.password = password) ∧
    ((¬ ∃ u, (login usuario password s).1 = .success u) →
      login usuario password s = (.failure "Usuario o contraseña incorrectos", s)) := by
  cases hf : (readLS s.users []).find? (fun u => u.usuario == usuario && u.password == password)
    with
  | none =>
    have hn := List.find?_eq_none.mp hf
    refine ⟨?_, ?_⟩
    · simp only [login, hf]
      constructor
      · rintro ⟨u, hu⟩; cases hu
      · rintro ⟨u, hu, h1, h2⟩
        have := hn u hu
        simp [h1, h2] at this
    · intro _; simp [login, hf]
  | some u =>
    have hp := List.find?_some hf
    have hm := List.mem_of_find?_eq_some hf
    simp only [Bool.and_eq_true, beq_iff_eq] at hp
    refine ⟨?_, ?_⟩
    · simp only [login, hf]
      exact ⟨fun _ => ⟨u, hm, hp.1, hp.2⟩, fun _ => ⟨u, rfl⟩⟩
    · intro h; exact absurd ⟨u, by simp [login, hf]⟩ h

/-- C9. `registerUser` fails exactly when some stored user has a `usuario` with the same
lower-case form as the new one. A failure leaves the storage as it was; a success returns the
new record, made of a fresh id and the given `nombre`, `usuario`, `password` and `rol`, and
appends it to the stored users. -/
theorem registerUser_spec (lower : String → String) (e : Entropy) (n : NewUser) (s : Store) :
    ((∃ msg, (registerUser lower e n s).1 = .failure msg) ↔
      ∃ u ∈ readLS s.users [], lower u.usuario = lower n.usuario) ∧
    ((∃ msg, (registerUser lower e n s).1 = .failure msg) → (registerUser lower e n s).2 = s) ∧
    ((¬ ∃ msg, (registerUser lower e n s).1 = .failure msg) →
      (registerUser lower e n s).1 =
        .success { id := genId "usr" e, nombre := n.nombre, usuario := n.usuario,
                   password := n.password, rol := n.rol } ∧
      readLS (registerUser lower e n s).2.users [] =
        readLS s.users [] ++ [{ id := genId "usr" e, nombre := n.nombre, usuario := n.usuario,
                                password := n.password, rol := n.rol }] ∧
      (registerUser lower e n s).2 =
        { s with users := some (readLS s.users [] ++
          [{ id := genId "usr" e, nombre := n.nombre, usuario := n.usuario,
             password := n.password, rol := n.rol }]) }) := by
  by_cases hd : ∃ u ∈ readLS s.users [], lower u.usuario = lower n.usuario
  · have hany : (readLS s.users []).any (fun u => lower u.usuario == lower n.usuario) = true := by
      simpa [List.any_eq_true] using hd
    have heq : registerUser lower e n s = (.failure "El usuario ya existe", s) := by
      simp only [registerUser, hany, if_true]
    rw [heq]
    exact ⟨⟨fun _ => hd, fun _ => ⟨_, rfl⟩⟩, fun _ => rfl, fun h => absurd ⟨_, rfl⟩ h⟩
  · have hany : ¬ (readLS s.users []).any (fun u => lower u.usuario == lower n.usuario) = true := by
      simpa [List.any_eq_true] using hd
    have heq : registerUser lower e n s =
        (.success { id := genId "usr" e, nombre := n.nombre, usuario := n.usuario,
                    password := n.password, rol := n.rol },
         { s with users := some (readLS s.users [] ++
            [{ id := genId "usr" e, nombre := n.nombre, usuario := n.usuario,
               password := n.password, rol := n.rol }]) }) := by
      simp only [registerUser, hany, if_false, Bool.false_eq_true]
    rw [heq]
    refine ⟨⟨?_, fun h => absurd h hd⟩, ?_, fun _ => ⟨rfl, rfl, rfl⟩⟩
    · rintro ⟨msg, h⟩; cases h
    · rintro ⟨msg, h⟩; cases h

/-- C10 as stated fails. A doctor form that passes the validators and carries an id no stored
doctor has is saved, and the doctors read back are still the empty list: no record is created. -/
theorem submit_unknown_id_creates_nothing :
    (handleDoctorSubmit sampleEntropy1 sampleDoctorEdit Store.empty).isSaved = true ∧
    getDoctors (handleDoctorSubmit sampleEntropy1 sampleDoctorEdit Store.empty).store = [] := by
  constructor <;> decide

/-- C10, amended. For the doctors, patients, appointments and history collections, a submit
is saved exactly when the form passes its checks, and then the list read back is described by
`UpsertOutcome`: without an id the submitted record is appended under a fresh id; with an id
that is found, the first record carrying it is replaced by the submitted record, which the list
read back then contains; with an id that is not found the list is unchanged. -/
theorem submit_roundtrip (parseInt10 : String → Option Int) (e : Entropy) (s : Store)
    (df : DoctorForm) (pf : PatientForm) (cf : CitaForm) (hf : HistForm) :
    (((handleDoctorSubmit e df s).isSaved = true ↔ df.passes) ∧
      (df.passes → ∃ l, handleDoctorSubmit e df s = .saved (saveDoctors l s) ∧
        getDoctors (handleDoctorSubmit e df s).store = l ∧
        UpsertOutcome Doctor.id df.record df.doctorId (genId "doc" e) (getDoctors s) l)) ∧
    (((handlePatientSubmit parseInt10 e pf s).isSaved = true ↔ pf.passes) ∧
      (pf.passes → ∃ l, handlePatientSubmit parseInt10 e pf s = .saved (savePatients l s) ∧
        getPatients (handlePatientSubmit parseInt10 e pf s).store = l ∧
        UpsertOutcome Patient.id (pf.record parseInt10 s) pf.patientId (genId "pac" e)
          (getPatients s) l)) ∧
    (((handleCitaSubmit e cf s).isSaved = true ↔ cf.passes s) ∧
      (cf.passes s → ∃ l, handleCitaSubmit e cf s = .saved (saveCitas l s) ∧
        getCitas (handleCitaSubmit e cf s).store = l ∧
        UpsertOutcome Cita.id (cf.record s) cf.citaId (genId "cit" e) (getCitas s) l)) ∧
    (((handleHistSubmit e hf s).isSaved = true ↔ hf.passes) ∧
      (hf.passes → ∃ l, handleHistSubmit e hf s = .saved (saveHistorial l s) ∧
        getHistorial (handleHistSubmit e hf s).store = l ∧
        UpsertOutcome Historial.id (hf.record s) hf.hId (genId "his" e) (getHistorial s) l)) := by
  refine ⟨⟨handleDoctorSubmit_isSaved e df s, ?_⟩,
    ⟨handlePatientSubmit_isSaved parseInt10 e pf s, ?_⟩,
    ⟨handleCitaSubmit_isSaved e cf s, ?_⟩, ⟨handleHistSubmit_isSaved e hf s, ?_⟩⟩
  · intro h
    rw [handleDoctorSubmit_saved e df s h]
    exact ⟨_, rfl, rfl, upsertOutcome_upsertList _ _ _ _ _⟩
  · intro h
    rw [handlePatientSubmit_saved parseInt10 e pf s h]
    exact ⟨_, rfl, rfl, upsertOutcome_upsertList _ _ _ _ _⟩
  · intro h
    rw [handleCitaSubmit_saved e cf s h]
    exact ⟨_, rfl, rfl, upsertOutcome_upsertList _ _ _ _ _⟩
  · intro h
    rw [handleHistSubmit_saved e hf s h]
    exact ⟨_, rfl, rfl, upsertOutcome_upsertList _ _ _ _ _⟩

/-- C10, amended, at concrete inputs: a new doctor and a new patient are appended to the
collections of a storage that holds one of each. -/
theorem submit_roundtrip_witness :
    (∃ l, handleDoctorSubmit sampleEntropy1 sampleDoctorNew sampleClinicStore =
        .saved (saveDoctors l sampleClinicStore) ∧
      getDoctors (handleDoctorSubmit sampleEntropy1 sampleDoctorNew sampleClinicStore).store = l ∧
      UpsertOutcome Doctor.id sampleDoctorNew.record sampleDoctorNew.doctorId
        (genId "doc" sampleEntropy1) (getDoctors sampleClinicStore) l) ∧
    getDoctors (handleDoctorSubmit sampleEntropy1 sampleDoctorNew sampleClinicStore).store =
      [ ⟨"doc_1", "Dra. Ana Ruiz", "Cardiología", "9999-9999", "ana@clinic.com",
          "L-V 09:00-17:00"⟩,
        ⟨"doc_k3j9x21234", "Dra. Ana", "Cardiología", "9999-9999", "ana@clinic.com",
          "L-V 09:00-17:00"⟩ ] ∧
    getPatients (handlePatientSubmit (fun _ => some 35) sampleEntropy1 (samplePatientForm "")
        sampleClinicStore).store =
      [ ⟨"pac_1", "Luis Mora", some 34, "M", "9999-9999", "Calle 1", "doc_1", "Dr. Ana Ruiz"⟩,
        ⟨"pac_k3j9x21234", "Luis Mora", some 35, "M", "9999-9999", "Calle 2", "doc_1",
          "Dra. Ana Ruiz"⟩ ] :=
  ⟨(submit_roundtrip (fun _ => some 35) sampleEntropy1 sampleClinicStore sampleDoctorNew
      (samplePatientForm "") sampleCitaForm (sampleHistForm "")).1.2
      ⟨by decide, by decide, by decide⟩,
   by decide, by decide⟩

/-- C11. For every storage and every choice of generated ids, a second run of `seedDefaults`
changes nothing: the users and the doctors, and the whole storage, are those left by the first
run. A run of `seedDefaults` leaves a non-empty users collection as it was, and likewise a
non-empty doctors collection. -/
theorem seedDefaults_idempotent (e1 e2 : Nat → Entropy) (s : Store) :
    seedDefaults e2 (seedDefaults e1 s) = seedDefaults e1 s ∧
    (seedDefaults e2 (seedDefaults e1 s)).users = (seedDefaults e1 s).users ∧
    (seedDefaults e2 (seedDefaults e1 s)).doctors = (seedDefaults e1 s).doctors ∧
    (readLS s.users [] ≠ [] → (seedDefaults e1 s).users = s.users) ∧
    (readLS s.doctors [] ≠ [] → (seedDefaults e1 s).doctors = s.doctors) := by
  have h : seedDefaults e2 (seedDefaults e1 s) = seedDefaults e1 s := by
    rw [seedDefaults_eq e2, seedDefaults_eq e1]
    by_cases hu : readLS s.users [] = [] <;> by_cases hd : readLS s.doctors [] = [] <;>
      simp [hu, hd, readLS_some, seedUserList, seedDoctorList]
  refine ⟨h, by rw [h], by rw [h], ?_, ?_⟩
  · intro hu; rw [seedDefaults_eq]; simp [hu]
  · intro hd; rw [seedDefaults_eq]; simp [hd]

/-- C12. The code breaks the invariant: after `seedDefaults` on the empty storage, a reachable
state, the first seeded doctor has the schedule `L-V 9:00-17:00`, which `validateSchedule`
rejects with the format message for segment 1, while its phone and e-mail pass. -/
theorem seeded_doctor_fails_schedule (e : Nat → Entropy) :
    DoctorsReachable (seedDefaults e Store.empty) ∧
    getDoctors (seedDefaults e Store.empty) = seedDoctorList e ∧
    (∃ d ∈ getDoctors (seedDefaults e Store.empty),
      d.nombre = "Dra. Sofía Pérez" ∧ d.horario = "L-V 9:00-17:00" ∧
      isPhoneIntl d.telefono = true ∧ isEmail d.correo = true ∧
      validateSchedule d.horario =
        { valid := false,
          message := some "Formato inválido en tramo 1. Ej: L-V 09:00-17:00" }) := by
  have h : getDoctors (seedDefaults e Store.empty) = seedDoctorList e := by
    rw [seedDefaults_eq]; rfl
  refine ⟨DoctorsReachable.seed e _ DoctorsReachable.init, h, ?_⟩
  rw [h]
  refine ⟨_, List.mem_cons_self _ _, rfl, rfl, ?_, ?_, ?_⟩
  · show isPhoneIntl "999-111-2222" = true
    decide
  · show isEmail "sofia@clinic.com" = true
    decide
  · show validateSchedule "L-V 9:00-17:00" = _
    decide

/-- C13. A confirmed cancel of the id `x` is a soft delete: the stored appointments are the old
ones in the same order and number, each appointment with id `x` having `estado` set to
`Cancelada` and its other fields kept, each other appointment kept as it was; no other
collection changes. -/
theorem cancel_is_soft_delete (x : String) (s : Store) :
    getCitas (onCitasTableClick (some { dataId := x, action := "del" }) true s) =
      (getCitas s).map (fun c => if c.id = x then { c with estado := "Cancelada" } else c) ∧
    (getCitas (onCitasTableClick (some { dataId := x, action := "del" }) true s)).length =
      (getCitas s).length ∧
    (∀ (i : Nat) (c : Cita), (getCitas s)[i]? = some c →
      (c.id = x →
        (getCitas (onCitasTableClick (some { dataId := x, action := "del" }) true s))[i]? =
          some { id := c.id, pacienteId := c.pacienteId, pacienteNombre := c.pacienteNombre,
                 doctorId := c.doctorId, doctorNombre := c.doctorNombre, fecha := c.fecha,
                 motivo := c.motivo, estado := "Cancelada" }) ∧
      (c.id ≠ x →
        (getCitas (onCitasTableClick (some { dataId := x, action := "del" }) true s))[i]? =
          some c)) ∧
    (onCitasTableClick (some { dataId := x, action := "del" }) true s).users = s.users ∧
    (onCitasTableClick (some { dataId := x, action := "del" }) true s).session = s.session ∧
    (onCitasTableClick (some { dataId := x, action := "del" }) true s).patients = s.patients ∧
    (onCitasTableClick (some { dataId := x, action := "del" }) true s).doctors = s.doctors ∧
    (onCitasTableClick (some { dataId := x, action := "del" }) true s).historial =
      s.historial := by
  have h : onCitasTableClick (some { dataId := x, action := "del" }) true s =
      saveCitas ((getCitas s).map
        (fun c => if c.id = x then { c with estado := "Cancelada" } else c)) s := by
    simp [onCitasTableClick]
  rw [h]
  refine ⟨rfl, by simp [getCitas, saveCitas, readLS_some], ?_, rfl, rfl, rfl, rfl, rfl⟩
  intro i c hc
  simp only [getCitas, saveCitas, readLS_some, List.getElem?_map]
  simp only [getCitas] at hc
  rw [hc]
  constructor
  · intro hid; simp [hid]
  · intro hid; simp [hid]

/-- C14. A confirmed delete of the id `x` in the doctors, patients or history table leaves
the records whose id is not `x`, in their order, and so no record with id `x`. -/
theorem delete_filters_by_id (x : String) (s : Store) :
    (getDoctors (onDoctorsTableClick (some { dataId := x, action := "del" }) true s) =
        (getDoctors s).filter (fun d => d.id != x) ∧
      ∀ d ∈ getDoctors (onDoctorsTableClick (some { dataId := x, action := "del" }) true s),
        d.id ≠ x) ∧
    (getPatients (onPatientsTableClick (some { dataId := x, action := "del" }) true s) =
        (getPatients s).filter (fun p => p.id != x) ∧
      ∀ p ∈ getPatients (onPatientsTableClick (some { dataId := x, action := "del" }) true s),
        p.id ≠ x) ∧
    (getHistorial (onHistTableClick (some { dataId := x, action := "del" }) true s) =
        (getHistorial s).filter (fun h => h.id != x) ∧
      ∀ h ∈ getHistorial (onHistTableClick (some { dataId := x, action := "del" }) true s),
        h.id ≠ x) := by
  have h1 : onDoctorsTableClick (some { dataId := x, action := "del" }) true s =
      saveDoctors ((getDoctors s).filter (fun d => d.id != x)) s := by
    simp [onDoctorsTableClick, bne]
  have h2 : onPatientsTableClick (some { dataId := x, action := "del" }) true s =
      savePatients ((getPatients s).filter (fun p => p.id != x)) s := by
    simp [onPatientsTableClick, bne]
  have h3 : onHistTableClick (some { dataId := x, action := "del" }) true s =
      saveHistorial ((getHistorial s).filter (fun h => h.id != x)) s := by
    simp [onHistTableClick, bne]
  rw [h1, h2, h3]
  refine ⟨⟨rfl, ?_⟩, ⟨rfl, ?_⟩, ⟨rfl, ?_⟩⟩
  · intro d hd
    have : d ∈ (getDoctors s).filter (fun d => d.id != x) := hd
    simpa using (List.mem_filter.mp this).2
  · intro d hd
    have : d ∈ (getPatients s).filter (fun d => d.id != x) := hd
    simpa using (List.mem_filter.mp this).2
  · intro d hd
    have : d ∈ (getHistorial s).filter (fun d => d.id != x) := hd
    simpa using (List.mem_filter.mp this).2

/-- C15. For the patient, appointment and history forms: a submit that passes the form's own
checks is saved, whatever the doctors and patients collections hold; every record it writes is
the record of the form, whose name fields are the `nombre` of the first doctor (or patient)
with the submitted foreign id in the collection read at that moment, or the empty string when
none has it. -/
theorem denormalized_names (parseInt10 : String → Option Int) (e : Entropy) (s : Store)
    (pf : PatientForm) (cf : CitaForm) (hf : HistForm) :
    (((handlePatientSubmit parseInt10 e pf s).isSaved = true ↔
        isPhoneIntl (jsTrim pf.pTelefono) = true) ∧
      (isPhoneIntl (jsTrim pf.pTelefono) = true →
        ∃ l, handlePatientSubmit parseInt10 e pf s = .saved (savePatients l s) ∧
          UpsertOutcome Patient.id (pf.record parseInt10 s) pf.patientId (genId "pac" e)
            (getPatients s) l) ∧
      ∀ i, NameResolved Doctor.id Doctor.nombre (getDoctors s) pf.pMedico
        (pf.record parseInt10 s i).medicoNombre) ∧
    (((handleCitaSubmit e cf s).isSaved = true ↔
        (cf.cPaciente ≠ "" ∧ cf.cDoctor ≠ "" ∧ cf.cFecha ≠ "" ∧
          ¬ (cf.citaId = "" ∧ ∃ c ∈ getCitas s, c.occupies cf.cDoctor cf.cFecha))) ∧
      ((cf.cPaciente ≠ "" ∧ cf.cDoctor ≠ "" ∧ cf.cFecha ≠ "" ∧
          ¬ (cf.citaId = "" ∧ ∃ c ∈ getCitas s, c.occupies cf.cDoctor cf.cFecha)) →
        ∃ l, handleCitaSubmit e cf s = .saved (saveCitas l s) ∧
          UpsertOutcome Cita.id (cf.record s) cf.citaId (genId "cit" e) (getCitas s) l) ∧
      ∀ i, NameResolved Patient.id Patient.nombre (getPatients s) cf.cPaciente
          (cf.record s i).pacienteNombre ∧
        NameResolved Doctor.id Doctor.nombre (getDoctors s) cf.cDoctor
          (cf.record s i).doctorNombre) ∧
    (((handleHistSubmit e hf s).isSaved = true ↔
        (hf.hPaciente ≠ "" ∧ hf.hDoctor ≠ "" ∧ hf.hFecha ≠ "")) ∧
      ((hf.hPaciente ≠ "" ∧ hf.hDoctor ≠ "" ∧ hf.hFecha ≠ "") →
        ∃ l, handleHistSubmit e hf s = .saved (saveHistorial l s) ∧
          UpsertOutcome Historial.id (hf.record s) hf.hId (genId "his" e) (getHistorial s) l) ∧
      ∀ i, NameResolved Patient.id Patient.nombre (getPatients s) hf.hPaciente
          (hf.record s i).pacienteNombre ∧
        NameResolved Doctor.id Doctor.nombre (getDoctors s) hf.hDoctor
          (hf.record s i).doctorNombre) := by
  refine ⟨⟨handlePatientSubmit_isSaved parseInt10 e pf s, ?_, ?_⟩,
    ⟨handleCitaSubmit_isSaved e cf s, ?_, ?_⟩, ⟨handleHistSubmit_isSaved e hf s, ?_, ?_⟩⟩
  · intro h
    rw [handlePatientSubmit_saved parseInt10 e pf s h]
    exact ⟨_, rfl, upsertOutcome_upsertList _ _ _ _ _⟩
  · intro i; exact nameResolved_find Doctor.id Doctor.nombre (getDoctors s) pf.pMedico
  · intro h
    rw [handleCitaSubmit_saved e cf s h]
    exact ⟨_, rfl, upsertOutcome_upsertList _ _ _ _ _⟩
  · intro i
    exact ⟨nameResolved_find Patient.id Patient.nombre (getPatients s) cf.cPaciente,
      nameResolved_find Doctor.id Doctor.nombre (getDoctors s) cf.cDoctor⟩
  · intro h
    rw [handleHistSubmit_saved e hf s h]
    exact ⟨_, rfl, upsertOutcome_upsertList _ _ _ _ _⟩
  · intro i
    exact ⟨nameResolved_find Patient.id Patient.nombre (getPatients s) hf.hPaciente,
      nameResolved_find Doctor.id Doctor.nombre (getDoctors s) hf.hDoctor⟩

/-- C15, at a concrete input: a history record for a doctor id that no doctor has is saved
with an empty `doctorNombre`, and with the name of the stored patient. -/
theorem denormalized_names_witness :
    (∃ l, handleHistSubmit sampleEntropy1 (sampleHistForm "") sampleClinicStore =
        .saved (saveHistorial l sampleClinicStore) ∧
      UpsertOutcome Historial.id ((sampleHistForm "").record sampleClinicStore)
        (sampleHistForm "").hId (genId "his" sampleEntropy1) (getHistorial sampleClinicStore)
        l) ∧
    getHistorial (handleHistSubmit sampleEntropy1 (sampleHistForm "") sampleClinicStore).store =
      [ ⟨"his_1", "pac_1", "Luis Mora", "doc_1", "Dra. Ana Ruiz", "2025-01-10", "Gripe",
          "Reposo", ""⟩,
        ⟨"his_k3j9x21234", "pac_1", "Luis Mora", "doc_9", "", "2025-02-01", "Control", "",
          ""⟩ ] :=
  ⟨(denormalized_names (fun _ => none) sampleEntropy1 sampleClinicStore (samplePatientForm "")
      sampleCitaForm (sampleHistForm "")).2.2.2.1 ⟨by decide, by decide, by decide⟩,
   by decide⟩

/-- C16 as stated fails. For `"L-V 09:00-17:00,,L-V 09:00-17:00,X"` the message carries the
number 3, while the first comma-separated segment that fails is the empty second one (and the
malformed `X` is the fourth). -/
theorem validateSchedule_message_skips_empty :
    (validateSchedule "L-V 09:00-17:00,,L-V 09:00-17:00,X").message = some (formatMessage 3) ∧
    (validateSchedule "L-V 09:00-17:00,,L-V 09:00-17:00,X").message ≠ some (formatMessage 2) ∧
    (validateSchedule "L-V 09:00-17:00,,L-V 09:00-17:00,X").message ≠ some (rangeMessage 2) ∧
    FirstFailureAt ((splitOn ',' "L-V 09:00-17:00,,L-V 09:00-17:00,X".data).map trimChars) 2 ∧
    ¬ FirstFailureAt
        ((splitOn ',' "L-V 09:00-17:00,,L-V 09:00-17:00,X".data).map trimChars) 3 := by
  have h2 : FirstFailureAt
      ((splitOn ',' "L-V 09:00-17:00,,L-V 09:00-17:00,X".data).map trimChars) 2 := by
    refine ⟨by decide, ⟨[], by decide, not_segmentFormat_of_loop (by decide)⟩, ?_⟩
    intro j seg hj hseg
    have hj0 : j = 0 := by omega
    subst hj0
    have : seg = "L-V 09:00-17:00".data := by
      have h0 : ((splitOn ',' "L-V 09:00-17:00,,L-V 09:00-17:00,X".data).map trimChars)[0]? =
          some "L-V 09:00-17:00".data := by decide
      rw [h0] at hseg
      exact (Option.some.inj hseg).symm
    rw [this]
    exact segmentFormat_of_loop (by decide)
  refine ⟨by decide, by decide, by decide, h2, ?_⟩
  intro h3
  exact absurd (firstFailureAt_unique h2 h3) (by decide)

/-- C16, amended. For a schedule that is not blank and that `validateSchedule` rejects, the
number in the message is the 1-based position of the first failing segment in the list of the
segments that are not empty once trimmed; the message is the format one when that segment has
not the shape of the pattern, and the range one when its start is not before its end. -/
theorem validateSchedule_message_position (s : String) (hb : ¬ Blank s.data)
    (hv : (validateSchedule s).valid = false) :
    ∃ n seg msg, FirstFailureAt (scheduleSegments s.data) n ∧
      (scheduleSegments s.data)[n - 1]? = some seg ∧
      (validateSchedule s).message = some msg ∧ FailureMessage seg n msg := by
  have h1 : trimChars s.data ≠ [] := fun h => hb ((trimChars_eq_nil_iff _).mp h)
  have h2 : s.data ≠ [] := by
    intro h; apply hb; rw [h]; intro a ha; exact absurd ha (List.not_mem_nil _)
  have h3 : (s.data.isEmpty || (trimChars s.data).isEmpty) = false := by
    simp [List.isEmpty_iff, h1, h2]
  have heq : validateSchedule s = scheduleLoop 0 (scheduleSegments s.data) := by
    simp only [validateSchedule, validateScheduleChars, h3, Bool.false_eq_true, if_false]
  rw [heq] at hv ⊢
  obtain ⟨k, seg, hk, hbad, hfirst, msg, hmsg, hfail⟩ := scheduleLoop_invalid _ 0 hv
  refine ⟨k + 1, seg, msg, ⟨by omega, ⟨seg, by simpa using hk, hbad⟩, ?_⟩, by simpa using hk,
    hmsg, ?_⟩
  · intro j x hj hx; exact hfirst j x (by omega) hx
  · simpa using hfail

/-- C16, amended, at a concrete input: a schedule whose second segment is malformed. -/
theorem validateSchedule_message_position_witness :
    ¬ Blank "L-V 09:00-17:00, X".data ∧
    (validateSchedule "L-V 09:00-17:00, X").valid = false ∧
    ∃ n seg msg, FirstFailureAt (scheduleSegments "L-V 09:00-17:00, X".data) n ∧
      (scheduleSegments "L-V 09:00-17:00, X".data)[n - 1]? = some seg ∧
      (validateSchedule "L-V 09:00-17:00, X").message = some msg ∧ FailureMessage seg n msg :=
  ⟨by unfold Blank; decide, by decide,
   validateSchedule_message_position "L-V 09:00-17:00, X" (by unfold Blank; decide) (by decide)⟩

/-- C17. With a lower-casing function that keeps the three seeded names apart, in every
storage reachable from the empty one by `seedDefaults` and `registerUser` no two records of the
users collection have the same `usuario` up to letter case. -/
theorem usuario_case_distinct (lower : String → String)
    (hl : lower "admin" ≠ lower "doctor" ∧ lower "admin" ≠ lower "recep" ∧
      lower "doctor" ≠ lower "recep")
    (s : Store) (h : UsersReachable lower s) : CaseDistinct lower (readLS s.users []) := by
  induction h with
  | init => exact List.Pairwise.nil
  | seed e s _ ih =>
    rw [seedDefaults_eq]
    by_cases hu : readLS s.users [] = []
    · simp only [hu, if_true, readLS_some, seedUserList, CaseDistinct]
      simp [hl.1, hl.2.1, hl.2.2]
    · simp only [hu, if_false]; exact ih
  | register e n s _ ih =>
    by_cases hd : ∃ u ∈ readLS s.users [], lower u.usuario = lower n.usuario
    · have hany : (readLS s.users []).any (fun u => lower u.usuario == lower n.usuario) = true := by
        simpa [List.any_eq_true] using hd
      simp only [registerUser, hany, if_true]
      exact ih
    · have hany : ¬ (readLS s.users []).any (fun u => lower u.usuario == lower n.usuario) = true := by
        simpa [List.any_eq_true] using hd
      simp only [registerUser, hany, if_false, Bool.false_eq_true, readLS_some, CaseDistinct]
      rw [List.pairwise_append]
      refine ⟨ih, List.pairwise_singleton _ _, ?_⟩
      intro a ha b hb
      rw [List.mem_singleton.mp hb]
      intro heq
      exact hd ⟨a, ha, heq⟩

/-- C17, at a concrete input: ASCII lower-casing, and a registration after the seeding. -/
theorem usuario_case_distinct_witness :
    (asciiLower "admin" ≠ asciiLower "doctor" ∧ asciiLower "admin" ≠ asciiLower "recep" ∧
      asciiLower "doctor" ≠ asciiLower "recep") ∧
    CaseDistinct asciiLower
      (readLS (registerUser asciiLower sampleEntropy1
        { nombre := "Ana", usuario := "Admin", password := "x", rol := "Doctor" }
        (seedDefaults (fun _ => sampleEntropy2) Store.empty)).2.users []) :=
  ⟨by decide,
   usuario_case_distinct asciiLower (by decide) _
     (UsersReachable.register _ _ _ (UsersReachable.seed _ _ UsersReachable.init))⟩

/-- C18. After `seedDefaults` on the empty storage the users are exactly the three seeded
accounts, one per role; `admin`/`admin`, `doctor`/`doctor` and `recep`/`recep` log in with the
roles `Administrador`, `Doctor` and `Recepcionista`; and the doctors are exactly the two sample
doctors. -/
theorem seedDefaults_accounts (e : Nat → Entropy) :
    readLS (seedDefaults e Store.empty).users [] = seedUserList e ∧
    (readLS (seedDefaults e Store.empty).users []).length = 3 ∧
    (readLS (seedDefaults e Store.empty).users []).map User.rol =
      ["Administrador", "Doctor", "Recepcionista"] ∧
    (∃ u, (login "admin" "admin" (seedDefaults e Store.empty)).1 = .success u ∧
      u.rol = "Administrador") ∧
    (∃ u, (login "doctor" "doctor" (seedDefaults e Store.empty)).1 = .success u ∧
      u.rol = "Doctor") ∧
    (∃ u, (login "recep" "recep" (seedDefaults e Store.empty)).1 = .success u ∧
      u.rol = "Recepcionista") ∧
    getDoctors (seedDefaults e Store.empty) = seedDoctorList e ∧
    (getDoctors (seedDefaults e Store.empty)).length = 2 := by
  have hu : readLS (seedDefaults e Store.empty).users [] = seedUserList e := by
    rw [seedDefaults_eq]; rfl
  have hd : getDoctors (seedDefaults e Store.empty) = seedDoctorList e := by
    rw [seedDefaults_eq]; rfl
  refine ⟨hu, by rw [hu]; rfl, by rw [hu]; rfl, ?_, ?_, ?_, hd, by rw [hd]; rfl⟩
  · refine ⟨⟨genId "usr" (e 0), "Admin", "admin", "admin", "Administrador"⟩, ?_, rfl⟩
    simp only [login, hu, seedUserList]
    rfl
  · refine ⟨⟨genId "usr" (e 1), "Dra. Demo", "doctor", "doctor", "Doctor"⟩, ?_, rfl⟩
    simp only [login, hu, seedUserList]
    rfl
  · refine ⟨⟨genId "usr" (e 2), "Recep Demo", "recep", "recep", "Recepcionista"⟩, ?_, rfl⟩
    simp only [login, hu, seedUserList]
    rfl

/-- C19 as stated fails. `"+1234567"` is a `+` followed by 7 decimal digits, and `isPhoneIntl`
rejects it: after a `+` the code asks for 8 to 15 digits. -/
theorem isPhoneIntl_plus_seven_digits :
    PhoneFormatLoose "+1234567".data ∧ isPhoneIntl "+1234567" = false := by
  refine ⟨Or.inl ⟨"1234567".data, by decide, by decide, by decide, by decide⟩, by decide⟩

/-- C19, amended. Every string that, with white space, parentheses, dots and dashes removed,
is `+` followed by 8 to 15 decimal digits, or 7 to 15 decimal digits, is accepted by
`isPhoneIntl`. -/
theorem isPhoneIntl_accepts (s : String) (h : PhoneFormat s.data) : isPhoneIntl s = true :=
  (isPhoneIntlChars_iff s.data).mpr h

/-- C19, amended, at concrete inputs: a number with a country code and a local number. -/
theorem isPhoneIntl_accepts_witness :
    PhoneFormat "+1 202-555-0123".data ∧ PhoneFormat "9999-9999".data ∧
    isPhoneIntl "+1 202-555-0123" = true ∧ isPhoneIntl "9999-9999" = true :=
  ⟨Or.inl ⟨"12025550123".data, by decide, by decide, by decide, by decide⟩,
   Or.inr ⟨by decide, by decide, by decide⟩,
   isPhoneIntl_accepts "+1 202-555-0123"
     (Or.inl ⟨"12025550123".data, by decide, by decide, by decide, by decide⟩),
   isPhoneIntl_accepts "9999-9999" (Or.inr ⟨by decide, by decide, by decide⟩)⟩

/-- C20. For the doctors, patients, appointments and history collections, a submit that
passes its checks and carries an id is saved as an update in place, as `UpdateInPlace` states:
the list keeps its length; when the id is found, only the position of the first record with
that id changes, and it now holds the submitted record with that id; when the id is not found
the list is as it was. -/
theorem submit_with_id_in_place (parseInt10 : String → Option Int) (e : Entropy) (s : Store)
    (df : DoctorForm) (pf : PatientForm) (cf : CitaForm) (hf : HistForm) :
    (df.passes → df.doctorId ≠ "" →
      ∃ l, handleDoctorSubmit e df s = .saved (saveDoctors l s) ∧
        getDoctors (handleDoctorSubmit e df s).store = l ∧
        UpdateInPlace Doctor.id (df.record df.doctorId) df.doctorId (getDoctors s) l) ∧
    (pf.passes → pf.patientId ≠ "" →
      ∃ l, handlePatientSubmit parseInt10 e pf s = .saved (savePatients l s) ∧
        getPatients (handlePatientSubmit parseInt10 e pf s).store = l ∧
        UpdateInPlace Patient.id (pf.record parseInt10 s pf.patientId) pf.patientId
          (getPatients s) l) ∧
    (cf.passes s → cf.citaId ≠ "" →
      ∃ l, handleCitaSubmit e cf s = .saved (saveCitas l s) ∧
        getCitas (handleCitaSubmit e cf s).store = l ∧
        UpdateInPlace Cita.id (cf.record s cf.citaId) cf.citaId (getCitas s) l) ∧
    (hf.passes → hf.hId ≠ "" →
      ∃ l, handleHistSubmit e hf s = .saved (saveHistorial l s) ∧
        getHistorial (handleHistSubmit e hf s).store = l ∧
        UpdateInPlace Historial.id (hf.record s hf.hId) hf.hId (getHistorial s) l) := by
  refine ⟨?_, ?_, ?_, ?_⟩
  · intro h hid
    rw [handleDoctorSubmit_saved e df s h]
    exact ⟨_, rfl, rfl, upsertList_updateInPlace Doctor.id df.record _ _ _ hid rfl⟩
  · intro h hid
    rw [handlePatientSubmit_saved parseInt10 e pf s h]
    exact ⟨_, rfl, rfl, upsertList_updateInPlace Patient.id (pf.record parseInt10 s) _ _ _ hid rfl⟩
  · intro h hid
    rw [handleCitaSubmit_saved e cf s h]
    exact ⟨_, rfl, rfl, upsertList_updateInPlace Cita.id (cf.record s) _ _ _ hid rfl⟩
  · intro h hid
    rw [handleHistSubmit_saved e hf s h]
    exact ⟨_, rfl, rfl, upsertList_updateInPlace Historial.id (hf.record s) _ _ _ hid rfl⟩

/-- C20, at concrete inputs: the stored doctor and the stored patient are replaced in place by
the submitted records. -/
theorem submit_with_id_in_place_witness :
    (∃ l, handleDoctorSubmit sampleEntropy1 sampleDoctorUpdate sampleClinicStore =
        .saved (saveDoctors l sampleClinicStore) ∧
      getDoctors (handleDoctorSubmit sampleEntropy1 sampleDoctorUpdate sampleClinicStore).store
        = l ∧
      UpdateInPlace Doctor.id (sampleDoctorUpdate.record sampleDoctorUpdate.doctorId)
        sampleDoctorUpdate.doctorId (getDoctors sampleClinicStore) l) ∧
    getDoctors (handleDoctorSubmit sampleEntropy1 sampleDoctorUpdate sampleClinicStore).store =
      [ ⟨"doc_1", "Dra. Ana Ruiz", "Medicina Interna", "+1 202-555-0123", "ana@clinic.com",
          "L-V 08:00-14:00"⟩ ] ∧
    getPatients (handlePatientSubmit (fun _ => some 35) sampleEntropy1
        (samplePatientForm "pac_1") sampleClinicStore).store =
      [ ⟨"pac_1", "Luis Mora", some 35, "M", "9999-9999", "Calle 2", "doc_1",
          "Dra. Ana Ruiz"⟩ ] :=
  ⟨(submit_with_id_in_place (fun _ => some 35) sampleEntropy1 sampleClinicStore
      sampleDoctorUpdate (samplePatientForm "pac_1") sampleCitaForm (sampleHistForm "his_1")).1
      ⟨by decide, by decide, by decide⟩ (by decide),
   by decide, by decide⟩

end Medicita
